import Mathlib

/-!
Verification of the `get_img` bounded-concurrency download pipeline.

Shallow embedding of the Go repository `smizoe/go-get_img`:

* `modules/modules.go` — the pipeline: `Requester` (search query),
  `Spawner` (orchestrator), `Getter` (fetcher), `Writer` (sink),
  plus the path-naming helper `validFilenameMaker`.
* `main.go` — supervisor loop reading the shared `opStatus` channel.

Pure helpers (`filepath` functions, `validFilenameMaker`, `Getter.Get`) are
embedded as Lean functions.  The concurrent pipeline is embedded as a
small-step transition system (`step`) over a configuration recording every
task's program counter, the channel close flags, the wait-group counter and
the list of outcome records received by the supervisor; unbuffered channel
communication is a rendezvous step advancing both sides at once.
-/

namespace GetImg

/-! ## Go `path/filepath` helpers used by the source (unix rules) -/

/-- `filepath.Ext`: the suffix beginning at the final dot in the final
slash-separated element of `p`; empty if there is no dot.  The scan walks
the characters from the end (`acc` collects the characters already walked,
in original order). -/
def goExtAux : List Char → List Char → String
  | _, [] => ""
  | acc, c :: rest =>
    if c = '/' then ""
    else if c = '.' then String.mk (c :: acc)
    else goExtAux (c :: acc) rest

def goExt (p : String) : String :=
  goExtAux [] p.data.reverse

/-- `filepath.Base`: last element of the path after removing trailing
slashes; `"."` for the empty path, `"/"` if the path is all slashes. -/
def goBase (p : String) : String :=
  if p = "" then "."
  else
    let r := p.data.reverse.dropWhile (· = '/')
    let name := r.takeWhile (· ≠ '/')
    if name = [] then "/" else String.mk name.reverse

/-- Segment form of `filepath.Clean`: process the slash-separated segments,
dropping `""` and `"."`, resolving `".."` against a stack (a leading `".."`
is dropped for rooted paths and kept otherwise). -/
def cleanSegs (rooted : Bool) : List String → List String → List String
  | stack, [] => stack.reverse
  | stack, seg :: rest =>
    if seg = "" || seg = "." then cleanSegs rooted stack rest
    else if seg = ".." then
      match stack with
      | [] => if rooted then cleanSegs rooted [] rest else cleanSegs rooted [".."] rest
      | top :: stk =>
        if top = ".." then cleanSegs rooted (".." :: top :: stk) rest
        else cleanSegs rooted stk rest
    else cleanSegs rooted (seg :: stack) rest

/-- `strings.Split` on the path separator, over the character list. -/
def splitSlashAux : List Char → List Char → List String
  | acc, [] => [String.mk acc.reverse]
  | acc, c :: rest =>
    if c = '/' then String.mk acc.reverse :: splitSlashAux [] rest
    else splitSlashAux (c :: acc) rest

def splitSlash (p : String) : List String := splitSlashAux [] p.data

def goClean (p : String) : String :=
  if p = "" then "."
  else
    let rooted : Bool := match p.data with | '/' :: _ => true | _ => false
    let segs := cleanSegs rooted [] (splitSlash p)
    let body := String.intercalate "/" segs
    if rooted then "/" ++ body
    else if body = "" then "." else body

/-- `filepath.Dir`: `Clean` of everything up to and including the final
path separator. -/
def goDir (p : String) : String :=
  goClean (String.mk (p.data.reverse.dropWhile (· ≠ '/')).reverse)

/-- `filepath.Join` restricted to two elements, as used at
`modules.go:295` and `modules.go:333`. -/
def goJoin (a b : String) : String :=
  if a = "" then (if b = "" then "" else goClean b)
  else goClean (a ++ "/" ++ b)

/-- `strings.HasSuffix`, over the character lists. -/
def goHasSuffix (s sfx : String) : Bool :=
  decide (sfx.data.length ≤ s.data.length) &&
    (s.data.drop (s.data.length - sfx.data.length) == sfx.data)

/-- `strings.TrimSuffix`. -/
def goTrimSuffix (s sfx : String) : String :=
  if goHasSuffix s sfx then String.mk (s.data.take (s.data.length - sfx.data.length))
  else s

/-! ## The filesystem model and `validFilenameMaker` (modules.go:322-340)

The filesystem is the set of existing paths.  The embedding threads the
filesystem state through every primitive so that creating a file would be
visible in the final state; `validFilenameMaker` only ever calls `stat`. -/

abbrev FS := List String

/-- `os.Stat` + `os.IsNotExist`: report whether the path exists; the
filesystem is unchanged. -/
def stat (p : String) (fs : FS) : Bool × FS := (fs.contains p, fs)

/-- `os.Create`: make the path exist (used by `Writer.Write`, never by
`validFilenameMaker`). -/
def create (p : String) (fs : FS) : Unit × FS := ((), p :: fs)

def maxIndices : Nat := 100

/-- The `for i := 0; i < maxIndices; i++` loop of `validFilenameMaker`
(modules.go:331-337); `fuel` counts the remaining iterations, so the loop
guard `i < maxIndices` becomes `fuel > 0` with `fuel = maxIndices - i`. -/
def vfmLoop (dir noSfx ext base : String) : Nat → Nat → FS → (Except String String) × FS
  | _, 0, fs =>
    (Except.error ("a number (maxIndices) of files have a similar name to " ++ base), fs)
  | i, fuel + 1, fs =>
    let fullPath := goJoin dir (noSfx ++ "_" ++ toString i ++ ext)
    let res := stat fullPath fs
    if res.1 then vfmLoop dir noSfx ext base (i + 1) fuel res.2
    else (Except.ok fullPath, res.2)

/-- `validFilenameMaker` (modules.go:322-340): return `writePath` if no
file exists there, otherwise try `noSuffix_i ++ ext` for `i < maxIndices`,
otherwise fail. -/
def validFilenameMaker (writePath : String) (fs : FS) : (Except String String) × FS :=
  let res := stat writePath fs
  if !res.1 then (Except.ok writePath, res.2)
  else
    let ext := goExt writePath
    let base := goBase writePath
    let dir := goDir writePath
    let noSfx := goTrimSuffix base ext
    vfmLoop dir noSfx ext base 0 maxIndices res.2

/-- The `i`-th disambiguated candidate path tried by `validFilenameMaker`. -/
def vfmCand (writePath : String) (i : Nat) : String :=
  goJoin (goDir writePath)
    (goTrimSuffix (goBase writePath) (goExt writePath) ++ "_" ++ toString i ++ goExt writePath)

/-! ## `Getter.Get` over the transport (modules.go:256-263)

`http.Get` returns a non-nil error only for transport-level failures; a
response that arrives — whatever its status code — comes back with a `nil`
error.  `Getter.Get` forwards exactly that error, so the status code is
never inspected. -/

inductive HttpResult
  | transportError (msg : String)
  | response (statusCode : Nat) (body : String)
deriving DecidableEq, Repr

/-- `Getter.Get` (modules.go:256-263). -/
def getterGet : HttpResult → Except String String
  | .transportError e => Except.error e
  | .response _ body => Except.ok body

inductive OperationStatus
  | Success
  | Failure
deriving DecidableEq, Repr

/-- What one `Getter.Main` run (modules.go:232-252) does with an HTTP
result: the content handed to the Writer (if any) and the status of the
OperationReply sent to the supervisor. -/
structure GetterRun where
  sent : Option String
  reply : OperationStatus
deriving DecidableEq, Repr

def getterMainModel (h : HttpResult) : GetterRun :=
  match getterGet h with
  | .error _ => ⟨none, .Failure⟩
  | .ok body => ⟨some body, .Success⟩

/-! ## The pipeline as a transition system

Tasks: the `main` supervisor loop (main.go:46-54), one `Requester`, one
`Spawner`, one `Writer`, and dynamically spawned `Getter`s.  All four
channels of the program (`chanPair`, `getAndWrite`, `probe`, `opStatus`)
are unbuffered, so a communication is one rendezvous step advancing sender
and receiver together.  A send on a closed channel is a fatal runtime
error, modelled by the `crashed` flag from which no step is possible. -/

/-- `ResultPair` (modules.go:58-61). -/
structure ResultPair where
  title : String
  mediaUrl : String
deriving DecidableEq, Repr

/-- `OperationReply` (modules.go:34-38); `ErrorMsg` is the recovered panic
payload, carried here as the underlying error string. -/
structure OperationReply where
  objType : String
  status : OperationStatus
  errorMsg : Option String
deriving DecidableEq, Repr

/-- `ImgData` (modules.go:40-43): the body is carried as the fetched byte
content. -/
structure ImgData where
  name : String
  content : String
deriving DecidableEq, Repr

/-- Program counter of `Requester.Main` (modules.go:87-106).  The Go loop
`for _, pair := range results { r.childWorker <- &pair }` reuses ONE loop
variable and sends its address, so the assignment to that variable
(`assign i`) and the send of the pointer (`send i`) are separate steps,
and the value the Spawner later reads lives in the shared `cell`. -/
inductive RState
  | start
  | assign (i : Nat)
  | send (i : Nat)
  | closeCh
  | emit (e : Option String)
  | done
deriving DecidableEq, Repr

/-- Program counter of `Spawner.Main` (modules.go:179-219): receive a
pair / read the pair and launch a Getter / block on `probe` when at the
budget / after the stream closes: own `wg.Done`, `wg.Wait`, close
`getAndWrite`, emit the reply. -/
inductive SState
  | recv
  | read
  | probe
  | finish1
  | wait
  | closeCh
  | emit
  | done
deriving DecidableEq, Repr

/-- Program counter of one `Getter.Main` task (modules.go:232-252):
fetch, send the `ImgData`, then in the deferred function emit the reply,
`wg.Done()`, and finally send on `spawnerProbe`. -/
inductive GState
  | start
  | sendImg (d : ImgData)
  | emit (e : Option String)
  | wgdone
  | probe
  | done
deriving DecidableEq, Repr

/-- Program counter of `Writer.Main` (modules.go:274-289): drain
`imgBox`; on close, emit the reply and then close the supervisor
channel. -/
inductive WState
  | recv
  | write (d : ImgData)
  | emit
  | closeCh
  | done
deriving DecidableEq, Repr

/-- Program counter of the supervisor loop in `main` (main.go:46-54). -/
inductive MState
  | recv
  | done
deriving DecidableEq, Repr

/-- One spawned Getter task: the url it was constructed with
(modules.go:203, read from the shared loop variable) and its pc. -/
structure GTask where
  url : String
  pc : GState
deriving DecidableEq, Repr

instance : Inhabited GTask := ⟨⟨"", GState.done⟩⟩

/-- Static inputs of a run: the `-max-routines` budget, the result of
`Requester.Request()`, the transport result of the `i`-th launched
Getter's `http.Get`, and the error (if any) of the Writer's `j`-th
`Write` call. -/
structure Env where
  budget : Int
  reqRes : Except String (List ResultPair)
  fetchRes : Nat → Except String String
  writeErr : Nat → Option String

/-- The descriptor sequence produced by the Requester (empty if the
request fails, in which case nothing is ever sent). -/
def Env.pairs (env : Env) : List ResultPair :=
  match env.reqRes with
  | .ok l => l
  | .error _ => []

/-- Global configuration: all task pcs, the shared loop-variable cell, the
Spawner's `currentRoutines` counter, the Writer's write counter, the
WaitGroup counter, the close flags of `chanPair` / `getAndWrite` /
`opStatus`, and the replies the supervisor has received, in order. -/
structure Config where
  req : RState
  cell : ResultPair
  spw : SState
  cur : Nat
  wrt : WState
  wcount : Nat
  getters : List GTask
  wg : Nat
  cwClosed : Bool
  gwClosed : Bool
  supClosed : Bool
  received : List OperationReply
  mainPc : MState
  crashed : Bool
deriving DecidableEq, Repr

/-- Reply constructors, `ObjType` from `reflect.TypeOf(*x).Name()`. -/
def reqReply (e : Option String) : OperationReply :=
  ⟨"Requester", if e.isSome then .Failure else .Success, e⟩

def getReply (e : Option String) : OperationReply :=
  ⟨"Getter", if e.isSome then .Failure else .Success, e⟩

/-- The Spawner's body has no panic source, so its deferred reply is
always `Success` (modules.go:180-187). -/
def spwReply : OperationReply := ⟨"Spawner", .Success, none⟩

/-- `Writer.Main` discards the error returned by `w.Write`
(modules.go:286), and nothing in its body panics, so its deferred reply
is always `Success` (modules.go:275-283). -/
def wrtReply : OperationReply := ⟨"Writer", .Success, none⟩

/-- Fatal runtime error (send on a closed channel): the whole process
dies, no task steps again. -/
def crash (c : Config) : Config := { c with crashed := true }

/-- Requester steps (modules.go:87-106).  On a request error the deferred
function recovers the panic and emits a Failure reply WITHOUT closing
`childWorker` (the `close` at line 105 is skipped). -/
def reqSteps (env : Env) (c : Config) : List Config :=
  match c.req with
  | .start =>
    match env.reqRes with
    | .error e => [{ c with req := .emit (some e) }]
    | .ok [] => [{ c with req := .closeCh }]
    | .ok (_ :: _) => [{ c with req := .assign 0 }]
  | .assign i =>
    [{ c with cell := env.pairs.getD i ⟨"", ""⟩, req := .send i }]
  | .send i =>
    if c.cwClosed then [crash c]
    else if c.spw = .recv then
      [{ c with spw := .read,
                req := if i + 1 < env.pairs.length then .assign (i + 1) else .closeCh }]
    else []
  | .closeCh => [{ c with cwClosed := true, req := .emit none }]
  | .emit e =>
    if c.supClosed then [crash c]
    else if c.mainPc = .recv then
      [{ c with received := c.received ++ [reqReply e], req := .done }]
    else []
  | .done => []

/-- Spawner steps (modules.go:199-218).  The rendezvous with the
Requester's send is enumerated in `reqSteps`; the rendezvous on `probe`
is enumerated in `gSteps`. -/
def spwSteps (env : Env) (c : Config) : List Config :=
  match c.spw with
  | .recv => if c.cwClosed then [{ c with spw := .finish1 }] else []
  | .read =>
    let cur' := c.cur + 1
    [{ c with getters := c.getters ++ [⟨c.cell.mediaUrl, .start⟩],
              wg := c.wg + 1,
              cur := cur',
              spw := if (cur' : Int) ≥ env.budget then SState.probe else SState.recv }]
  | .probe => []
  | .finish1 => [{ c with wg := c.wg - 1, spw := .wait }]
  | .wait => if c.wg = 0 then [{ c with spw := .closeCh }] else []
  | .closeCh => [{ c with gwClosed := true, spw := .emit }]
  | .emit =>
    if c.supClosed then [crash c]
    else if c.mainPc = .recv then
      [{ c with received := c.received ++ [spwReply], spw := .done }]
    else []
  | .done => []

/-- Writer steps (modules.go:274-289).  The rendezvous receiving an
`ImgData` is enumerated in `gSteps`.  The result of `w.Write` is
discarded (modules.go:286): both branches of the match produce the same
successor. -/
def wrtSteps (env : Env) (c : Config) : List Config :=
  match c.wrt with
  | .recv => if c.gwClosed then [{ c with wrt := .emit }] else []
  | .write _ =>
    match env.writeErr c.wcount with
    | some _ => [{ c with wrt := .recv, wcount := c.wcount + 1 }]
    | none => [{ c with wrt := .recv, wcount := c.wcount + 1 }]
  | .emit =>
    if c.supClosed then [crash c]
    else if c.mainPc = .recv then
      [{ c with received := c.received ++ [wrtReply], wrt := .closeCh }]
    else []
  | .closeCh => [{ c with supClosed := true, wrt := .done }]
  | .done => []

/-- Steps of the Getter at position `i` (modules.go:232-252). -/
def gStep (env : Env) (c : Config) (i : Nat) (g : GTask) : List Config :=
  match g.pc with
  | .start =>
    match env.fetchRes i with
    | .ok body =>
      [{ c with getters := c.getters.set i { g with pc := .sendImg ⟨goBase g.url, body⟩ } }]
    | .error e =>
      [{ c with getters := c.getters.set i { g with pc := .emit (some e) } }]
  | .sendImg d =>
    if c.gwClosed then [crash c]
    else if c.wrt = .recv then
      [{ c with getters := c.getters.set i { g with pc := .emit none }, wrt := .write d }]
    else []
  | .emit e =>
    if c.supClosed then [crash c]
    else if c.mainPc = .recv then
      [{ c with getters := c.getters.set i { g with pc := .wgdone },
                received := c.received ++ [getReply e] }]
    else []
  | .wgdone =>
    [{ c with getters := c.getters.set i { g with pc := .probe }, wg := c.wg - 1 }]
  | .probe =>
    if c.spw = .probe then
      [{ c with getters := c.getters.set i { g with pc := .done },
                cur := c.cur - 1, spw := .recv }]
    else []
  | .done => []

def gSteps (env : Env) (c : Config) : List Config :=
  (List.range c.getters.length).flatMap fun i => gStep env c i (c.getters.getD i default)

/-- The supervisor loop's own step: its receives of actual replies are
the rendezvous steps above; once `opStatus` is closed the loop ends
(main.go:46-54). -/
def mainSteps (c : Config) : List Config :=
  if c.supClosed = true ∧ c.mainPc = .recv then [{ c with mainPc := .done }] else []

def step (env : Env) (c : Config) : List Config :=
  if c.crashed then []
  else reqSteps env c ++ spwSteps env c ++ wrtSteps env c ++ gSteps env c ++ mainSteps c

/-- Initial configuration, after the deterministic setup of `main` and of
`Spawner.Main` up to its first suspension point: channels open, the
Spawner's own `wg.Add(1)` (modules.go:192) done, Writer spawned. -/
def initConfig : Config :=
  { req := .start, cell := ⟨"", ""⟩, spw := .recv, cur := 0, wrt := .recv, wcount := 0,
    getters := [], wg := 1, cwClosed := false, gwClosed := false, supClosed := false,
    received := [], mainPc := .recv, crashed := false }

/-- Reachability under any scheduler. -/
inductive Reach (env : Env) : Config → Config → Prop
  | refl (c : Config) : Reach env c c
  | tail {a b c : Config} : Reach env a b → c ∈ step env b → Reach env a c

theorem Reach.trans {env : Env} {a b c : Config}
    (h1 : Reach env a b) (h2 : Reach env b c) : Reach env a c := by
  induction h2 with
  | refl => exact h1
  | tail _ hs ih => exact Reach.tail ih hs

/-- Run a concrete schedule: at each point pick the `i`-th enabled step
(staying put if the index is out of range). -/
def runChoices (env : Env) (c : Config) : List Nat → Config
  | [] => c
  | i :: rest => runChoices env ((step env c).getD i c) rest

theorem reach_getD (env : Env) (c : Config) (i : Nat) :
    Reach env c ((step env c).getD i c) := by
  by_cases h : i < (step env c).length
  · exact Reach.tail (Reach.refl c) (by
      rw [List.getD_eq_getElem?_getD, List.getElem?_eq_getElem h]
      exact List.getElem_mem h)
  · rw [List.getD_eq_getElem?_getD, List.getElem?_eq_none (by omega)]
    exact Reach.refl c

theorem reach_runChoices (env : Env) (c : Config) (l : List Nat) :
    Reach env c (runChoices env c l) := by
  induction l generalizing c with
  | nil => exact Reach.refl c
  | cons i rest ih =>
    exact Reach.trans (reach_getD env c i) (ih ((step env c).getD i c))

/-! ## Counters over a configuration -/

/-- A Getter task that has not yet been retired: live from its
`go getter.Main(wgp)` until the Spawner has received its slot-free probe
signal (after which it has nothing left to run). -/
def isLive : GState → Bool
  | .done => false
  | _ => true

/-- A Getter task that has already executed its `wg.Done()`. -/
def pastWg : GState → Bool
  | .probe => true
  | .done => true
  | _ => false

/-- A Getter task that has already emitted its OperationReply. -/
def pastEmit : GState → Bool
  | .wgdone => true
  | .probe => true
  | .done => true
  | _ => false

def countWg (c : Config) : Nat :=
  c.getters.countP fun g => pastWg g.pc

def countEmitted (c : Config) : Nat :=
  c.getters.countP fun g => pastEmit g.pc

def liveGetters (c : Config) : Nat :=
  c.getters.countP fun g => isLive g.pc

def gCount (l : List OperationReply) : Nat := l.countP fun r => r.objType == "Getter"

def wCount (l : List OperationReply) : Nat := l.countP fun r => r.objType == "Writer"

def sCount (l : List OperationReply) : Nat := l.countP fun r => r.objType == "Spawner"

/-- The number of descriptor sends the Requester has completed, read off
its program counter. -/
def sendsDone (env : Env) : RState → Nat
  | .start => 0
  | .assign i => i
  | .send i => i
  | .closeCh => env.pairs.length
  | .emit _ => env.pairs.length
  | .done => env.pairs.length

/-- The Spawner's own `wg.Add(1)` (modules.go:192) is still outstanding
until its `wg.Done()` at modules.go:214. -/
def sExtra : SState → Nat
  | .recv => 1
  | .read => 1
  | .probe => 1
  | .finish1 => 1
  | _ => 0

/-- Spawner program points after its receive loop has ended. -/
def spwLate : SState → Bool
  | .finish1 => true
  | .wait => true
  | .closeCh => true
  | .emit => true
  | .done => true
  | _ => false

/-- The effective admission window: `max budget 1` (with `budget <= 0`
the check `currentRoutines >= maxRoutines` at modules.go:208 fires after
every launch, so the window degenerates to 1, it is never rejected). -/
def capN (env : Env) : Nat := if env.budget ≤ 1 then 1 else env.budget.toNat

theorem one_le_capN (env : Env) : 1 ≤ capN env := by
  unfold capN; split <;> omega

/-- Shape of any reply that can ever reach the supervisor channel:
Spawner and Writer replies are always `Success`; Getter and Requester
replies are `Failure` exactly when they carry a recovered error. -/
def ReplyOk (r : OperationReply) : Prop :=
  (r.objType = "Spawner" ∨ r.objType = "Writer" →
    r.status = .Success ∧ r.errorMsg = none) ∧
  (r.objType = "Getter" ∨ r.objType = "Requester" →
    (r.status = .Failure ↔ r.errorMsg.isSome = true)) ∧
  (r.objType = "Requester" ∨ r.objType = "Spawner" ∨
    r.objType = "Getter" ∨ r.objType = "Writer")

/-! ## The protocol invariant -/

/-- The global inductive invariant of the pipeline, preserved by every
step from the initial configuration. -/
structure Inv (env : Env) (c : Config) : Prop where
  liveEq : liveGetters c = c.cur
  curRecv : c.spw = .recv ∨ c.spw = .read → c.cur + 1 ≤ capN env
  curAll : c.cur ≤ capN env
  wgEq : c.wg + countWg c = c.getters.length + sExtra c.spw
  sends : c.getters.length + (if c.spw = .read then 1 else 0) = sendsDone env c.req
  sendIdx : ∀ i, c.req = .assign i ∨ c.req = .send i → i < env.pairs.length
  cwreq : c.cwClosed = true →
    env.reqRes.isOk = true ∧ (c.req = .emit none ∨ c.req = .done)
  reqErr : ∀ e, env.reqRes = .error e →
    c.req = .start ∨ c.req = .emit (some e) ∨ c.req = .done
  gwIff : c.gwClosed = true ↔ (c.spw = .emit ∨ c.spw = .done)
  wgZero : c.spw = .closeCh ∨ c.spw = .emit ∨ c.spw = .done → c.wg = 0
  spwLateCw : spwLate c.spw = true → c.cwClosed = true
  wrtPhase : c.wrt = .emit ∨ c.wrt = .closeCh ∨ c.wrt = .done → c.gwClosed = true
  supIff : c.supClosed = true ↔ c.wrt = .done
  mainSup : c.mainPc = .done → c.supClosed = true
  probeCur : c.spw = .probe → 1 ≤ c.cur
  writeL : ∀ d, c.wrt = .write d → 1 ≤ c.getters.length
  gReplies : gCount c.received = countEmitted c
  wReplies : wCount c.received = if c.wrt = .closeCh ∨ c.wrt = .done then 1 else 0
  sReplies : sCount c.received = if c.spw = .done then 1 else 0
  shape : ∀ r ∈ c.received, ReplyOk r
  orderCl : gCount (c.received.takeWhile fun r => !(r.objType == "Writer")) =
    gCount c.received
  reqReplyShape : ∀ e, env.reqRes = .error e →
    ∀ r ∈ c.received, r.objType = "Requester" → r = reqReply (some e)

/-! ### Helper lemmas -/

theorem countP_set_eq {α : Type} (p : α → Bool) (l : List α) (i : Nat) (x : α)
    (h : i < l.length) :
    (l.set i x).countP p + (if p l[i] then 1 else 0)
      = l.countP p + (if p x then 1 else 0) := by
  induction l generalizing i with
  | nil => simp at h
  | cons a t ih =>
    cases i with
    | zero => simp [List.countP_cons]; split_ifs <;> omega
    | succ n =>
      simp only [List.set, List.countP_cons, List.getElem_cons_succ]
      have := ih n (by simpa using h)
      omega

theorem takeWhile_append_of_all {α : Type} {p : α → Bool} {l : List α}
    (h : ∀ a ∈ l, p a = true) (t : List α) :
    (l ++ t).takeWhile p = l ++ t.takeWhile p := by
  induction l with
  | nil => rfl
  | cons a l ih =>
    have ha := h a (by simp)
    simp only [List.cons_append, List.takeWhile_cons, ha, if_true]
    rw [ih fun b hb => h b (by simp [hb])]

theorem takeWhile_append_of_stop {α : Type} {p : α → Bool} {l : List α}
    (h : ∃ a ∈ l, p a = false) (t : List α) :
    (l ++ t).takeWhile p = l.takeWhile p := by
  induction l with
  | nil => obtain ⟨a, ha, _⟩ := h; simp at ha
  | cons a l ih =>
    by_cases hpa : p a = true
    · simp only [List.cons_append, List.takeWhile_cons, hpa, if_true]
      obtain ⟨b, hb, hpb⟩ := h
      rcases List.mem_cons.1 hb with rfl | hb
      · rw [hpa] at hpb; cases hpb
      · rw [ih ⟨b, hb, hpb⟩]
    · have : p a = false := by revert hpa; cases p a <;> simp
      simp [List.takeWhile_cons, this]

theorem wCount_zero_all {l : List OperationReply} (h : wCount l = 0) :
    ∀ r ∈ l, (!(r.objType == "Writer")) = true := by
  intro r hr
  have := List.countP_eq_zero.1 h r hr
  revert this; cases r.objType == "Writer" <;> simp

theorem orderCl_append_nonwriter {l : List OperationReply} {r : OperationReply}
    (hrw : (r.objType == "Writer") = false)
    (hg : (r.objType == "Getter") = false ∨ wCount l = 0)
    (h : gCount (l.takeWhile fun x => !(x.objType == "Writer")) = gCount l) :
    gCount ((l ++ [r]).takeWhile fun x => !(x.objType == "Writer")) = gCount (l ++ [r]) := by
  by_cases hw : wCount l = 0
  · rw [takeWhile_append_of_all (wCount_zero_all hw)]
    simp [List.takeWhile_cons, hrw]
  · rcases hg with hg | hg
    · have hex : ∃ a ∈ l, (!(a.objType == "Writer")) = false := by
        have : 0 < wCount l := Nat.pos_of_ne_zero hw
        obtain ⟨a, ha, hpa⟩ := List.countP_pos.1 this
        exact ⟨a, ha, by simp [hpa]⟩
      rw [takeWhile_append_of_stop hex]
      rw [h]
      simp [gCount, List.countP_append, List.countP_cons, hg]
    · exact absurd hg hw

theorem orderCl_append_writer {l : List OperationReply}
    (hw : wCount l = 0) :
    gCount ((l ++ [wrtReply]).takeWhile fun x => !(x.objType == "Writer"))
      = gCount (l ++ [wrtReply]) := by
  rw [takeWhile_append_of_all (wCount_zero_all hw)]
  simp [gCount, wrtReply, List.countP_append, List.countP_cons]

theorem replyOk_req (e : Option String) : ReplyOk (reqReply e) := by
  cases e <;> simp [ReplyOk, reqReply]

theorem replyOk_get (e : Option String) : ReplyOk (getReply e) := by
  cases e <;> simp [ReplyOk, getReply]

theorem replyOk_spw : ReplyOk spwReply := by simp [ReplyOk, spwReply]

theorem replyOk_wrt : ReplyOk wrtReply := by simp [ReplyOk, wrtReply]

theorem inv_init (env : Env) : Inv env initConfig := by
  refine ⟨?_, ?_, ?_, ?_, ?_, ?_, ?_, ?_, ?_, ?_, ?_, ?_, ?_, ?_, ?_, ?_, ?_, ?_, ?_, ?_,
    ?_, ?_⟩ <;>
    simp [initConfig, liveGetters, countWg, countEmitted, gCount, wCount, sCount, sendsDone,
      sExtra, spwLate, capN] <;>
    (try split) <;> omega

/-- The crash transition changes only the `crashed` flag, which the
invariant does not mention. -/
theorem inv_crash {env : Env} {c : Config} (h : Inv env c) : Inv env (crash c) :=
  ⟨h.liveEq, h.curRecv, h.curAll, h.wgEq, h.sends, h.sendIdx, h.cwreq, h.reqErr, h.gwIff,
   h.wgZero, h.spwLateCw, h.wrtPhase, h.supIff, h.mainSup, h.probeCur, h.writeL,
   h.gReplies, h.wReplies, h.sReplies, h.shape, h.orderCl, h.reqReplyShape⟩

theorem inv_req (env : Env) {c c' : Config} (h : Inv env c) (hs : c' ∈ reqSteps env c) :
    Inv env c' := by
  rcases hq : c.req with _ | i | i | _ | e | _ <;>
    simp only [reqSteps, hq] at hs
  case start =>
    rcases hE : env.reqRes with e | ps <;> simp only [hE] at hs
    · -- request failed: recover, move to emitting the Failure reply;
      -- childWorker is NOT closed
      rw [List.mem_singleton] at hs; subst hs
      refine ⟨h.liveEq, h.curRecv, h.curAll, h.wgEq, ?_, ?_, ?_, ?_, h.gwIff, h.wgZero,
        h.spwLateCw, h.wrtPhase, h.supIff, h.mainSup, h.probeCur, h.writeL, h.gReplies,
        h.wReplies, h.sReplies, h.shape, h.orderCl, h.reqReplyShape⟩
      · have hse := h.sends; rw [hq] at hse
        simpa [sendsDone, Env.pairs, hE] using hse
      · intro i hi; rcases hi with hi | hi <;> cases hi
      · intro hcw
        have := (h.cwreq hcw).1
        simp [hE, Except.isOk, Except.toBool] at this
      · intro e' he'; rw [hE] at he'
        injection he' with he''; subst he''
        exact Or.inr (Or.inl rfl)
    · rcases ps with _ | ⟨p, ps⟩ <;> rw [List.mem_singleton] at hs <;> subst hs
      · -- empty result: skip the loop, close childWorker next
        refine ⟨h.liveEq, h.curRecv, h.curAll, h.wgEq, ?_, ?_, ?_, ?_, h.gwIff, h.wgZero,
          h.spwLateCw, h.wrtPhase, h.supIff, h.mainSup, h.probeCur, h.writeL, h.gReplies,
          h.wReplies, h.sReplies, h.shape, h.orderCl, h.reqReplyShape⟩
        · have hse := h.sends; rw [hq] at hse
          simpa [sendsDone, Env.pairs, hE] using hse
        · intro i hi; rcases hi with hi | hi <;> cases hi
        · intro hcw
          rcases (h.cwreq hcw).2 with h2 | h2 <;> (rw [hq] at h2; cases h2)
        · intro e' he'; rw [hE] at he'; cases he'
      · -- nonempty result: start the send loop at index 0
        refine ⟨h.liveEq, h.curRecv, h.curAll, h.wgEq, ?_, ?_, ?_, ?_, h.gwIff, h.wgZero,
          h.spwLateCw, h.wrtPhase, h.supIff, h.mainSup, h.probeCur, h.writeL, h.gReplies,
          h.wReplies, h.sReplies, h.shape, h.orderCl, h.reqReplyShape⟩
        · have hse := h.sends; rw [hq] at hse
          simpa [sendsDone] using hse
        · intro i hi
          rcases hi with hi | hi <;> cases hi
          simp [Env.pairs, hE]
        · intro hcw
          rcases (h.cwreq hcw).2 with h2 | h2 <;> (rw [hq] at h2; cases h2)
        · intro e' he'; rw [hE] at he'; cases he'
  case assign =>
    -- pair = results[i]: write the shared loop variable, move to the send
    rw [List.mem_singleton] at hs; subst hs
    refine ⟨h.liveEq, h.curRecv, h.curAll, h.wgEq, ?_, ?_, ?_, ?_, h.gwIff, h.wgZero,
      h.spwLateCw, h.wrtPhase, h.supIff, h.mainSup, h.probeCur, h.writeL, h.gReplies,
      h.wReplies, h.sReplies, h.shape, h.orderCl, h.reqReplyShape⟩
    · have hse := h.sends; rw [hq] at hse
      simpa [sendsDone] using hse
    · intro j hj
      rcases hj with hj | hj
      · cases hj
      · injection hj with hj'; subst hj'
        exact h.sendIdx i (Or.inl hq)
    · intro hcw
      rcases (h.cwreq hcw).2 with h2 | h2 <;> (rw [hq] at h2; cases h2)
    · intro e' he'
      rcases h.reqErr e' he' with h1 | h1 | h1 <;> (rw [hq] at h1; cases h1)
  case send =>
    by_cases hcw : c.cwClosed = true
    · rw [if_pos hcw, List.mem_singleton] at hs; subst hs
      exact inv_crash h
    · rw [if_neg hcw] at hs
      by_cases hsp : c.spw = SState.recv
      · rw [if_pos hsp] at hs
        -- rendezvous: Spawner moves to the racy read, Requester to the
        -- next assignment (or to closing the channel)
        have hse : c.getters.length = i := by
          have hx := h.sends; rw [hq, hsp] at hx
          simpa [sendsDone] using hx
        have hlt : i < env.pairs.length := h.sendIdx i (Or.inr hq)
        have hwgx : c.wg + countWg c = c.getters.length + 1 := by
          have hx := h.wgEq; rw [hsp] at hx; simpa [sExtra] using hx
        have hgwF : ¬c.gwClosed = true := by
          intro hg
          rcases h.gwIff.1 hg with h1 | h1 <;> (rw [hsp] at h1; cases h1)
        have hsrep := h.sReplies; rw [hsp] at hsrep; simp at hsrep
        by_cases hc : i + 1 < env.pairs.length <;>
          [rw [if_pos hc, List.mem_singleton] at hs;
           rw [if_neg hc, List.mem_singleton] at hs] <;> subst hs
        · refine ⟨h.liveEq, ?_, h.curAll, ?_, ?_, ?_, ?_, ?_, ?_, ?_, ?_, h.wrtPhase,
            h.supIff, h.mainSup, ?_, h.writeL, h.gReplies, h.wReplies, ?_, h.shape,
            h.orderCl, h.reqReplyShape⟩
          · intro _; exact h.curRecv (Or.inl hsp)
          · simpa [sExtra] using hwgx
          · simp [sendsDone]; omega
          · intro j hj
            rcases hj with hj | hj
            · injection hj with hj'; omega
            · cases hj
          · intro hcw'; exact absurd hcw' hcw
          · intro e' he'
            rcases h.reqErr e' he' with h1 | h1 | h1 <;> (rw [hq] at h1; cases h1)
          · constructor
            · intro hg; exact absurd hg hgwF
            · intro hd; rcases hd with h1 | h1 <;> cases h1
          · intro hd; rcases hd with h1 | h1 | h1 <;> cases h1
          · intro h1; simp [spwLate] at h1
          · intro h1; cases h1
          · simpa using hsrep
        · refine ⟨h.liveEq, ?_, h.curAll, ?_, ?_, ?_, ?_, ?_, ?_, ?_, ?_, h.wrtPhase,
            h.supIff, h.mainSup, ?_, h.writeL, h.gReplies, h.wReplies, ?_, h.shape,
            h.orderCl, h.reqReplyShape⟩
          · intro _; exact h.curRecv (Or.inl hsp)
          · simpa [sExtra] using hwgx
          · simp [sendsDone]; omega
          · intro j hj; rcases hj with hj | hj <;> cases hj
          · intro hcw'; exact absurd hcw' hcw
          · intro e' he'
            rcases h.reqErr e' he' with h1 | h1 | h1 <;> (rw [hq] at h1; cases h1)
          · constructor
            · intro hg; exact absurd hg hgwF
            · intro hd; rcases hd with h1 | h1 <;> cases h1
          · intro hd; rcases hd with h1 | h1 | h1 <;> cases h1
          · intro h1; simp [spwLate] at h1
          · intro h1; cases h1
          · simpa using hsrep
      · rw [if_neg hsp] at hs; cases hs
  case closeCh =>
    rw [List.mem_singleton] at hs; subst hs
    -- close(childWorker), then emit the Success reply
    have hok : env.reqRes.isOk = true := by
      rcases hE : env.reqRes with e | ps
      · rcases h.reqErr e hE with h1 | h1 | h1 <;> (rw [hq] at h1; cases h1)
      · simp [Except.isOk, Except.toBool]
    refine ⟨h.liveEq, h.curRecv, h.curAll, h.wgEq, ?_, ?_, ?_, ?_, h.gwIff, h.wgZero,
      ?_, h.wrtPhase, h.supIff, h.mainSup, h.probeCur, h.writeL, h.gReplies,
      h.wReplies, h.sReplies, h.shape, h.orderCl, h.reqReplyShape⟩
    · have hse := h.sends; rw [hq] at hse
      simpa [sendsDone] using hse
    · intro j hj; rcases hj with hj | hj <;> cases hj
    · intro _; exact ⟨hok, Or.inl rfl⟩
    · intro e' he'
      rcases h.reqErr e' he' with h1 | h1 | h1 <;> (rw [hq] at h1; cases h1)
    · intro _; rfl
  case emit =>
    by_cases hsup : c.supClosed = true
    · rw [if_pos hsup, List.mem_singleton] at hs; subst hs
      exact inv_crash h
    · rw [if_neg hsup] at hs
      by_cases hm : c.mainPc = MState.recv
      · rw [if_pos hm, List.mem_singleton] at hs; subst hs
        -- rendezvous with the supervisor loop: the reply is received
        refine ⟨h.liveEq, h.curRecv, h.curAll, h.wgEq, ?_, ?_, ?_, ?_, h.gwIff, h.wgZero,
          h.spwLateCw, h.wrtPhase, h.supIff, h.mainSup, h.probeCur, h.writeL, ?_, ?_, ?_,
          ?_, ?_, ?_⟩
        · have hse := h.sends; rw [hq] at hse
          simpa [sendsDone] using hse
        · intro j hj; rcases hj with hj | hj <;> cases hj
        · intro hcw; exact ⟨(h.cwreq hcw).1, Or.inr rfl⟩
        · intro e' _; exact Or.inr (Or.inr rfl)
        · simpa [gCount, List.countP_append, List.countP_cons, reqReply,
            countEmitted] using h.gReplies
        · simpa [wCount, List.countP_append, List.countP_cons, reqReply]
            using h.wReplies
        · simpa [sCount, List.countP_append, List.countP_cons, reqReply]
            using h.sReplies
        · intro r hr
          rcases List.mem_append.1 hr with hr | hr
          · exact h.shape r hr
          · rw [List.mem_singleton.1 hr]; exact replyOk_req e
        · exact orderCl_append_nonwriter (by simp [reqReply])
            (Or.inl (by simp [reqReply])) h.orderCl
        · intro e' he' r hr hobj
          rcases List.mem_append.1 hr with hr | hr
          · exact h.reqReplyShape e' he' r hr hobj
          · rw [List.mem_singleton.1 hr]
            rcases h.reqErr e' he' with h1 | h1 | h1 <;> rw [hq] at h1
            · cases h1
            · injection h1 with h1
              exact congrArg reqReply h1
            · cases h1
      · rw [if_neg hm] at hs; cases hs
  case done => cases hs

theorem inv_spw (env : Env) {c c' : Config} (h : Inv env c) (hs : c' ∈ spwSteps env c) :
    Inv env c' := by
  rcases hq : c.spw with _ | _ | _ | _ | _ | _ | _ | _ <;>
    simp only [spwSteps, hq] at hs
  case recv =>
    by_cases hcw : c.cwClosed = true
    · rw [if_pos hcw, List.mem_singleton] at hs; subst hs
      -- childWorker closed and drained: leave the receive loop
      have hgwF : ¬c.gwClosed = true := by
        intro hg; rcases h.gwIff.1 hg with h1 | h1 <;> (rw [hq] at h1; cases h1)
      refine ⟨h.liveEq, ?_, h.curAll, ?_, ?_, h.sendIdx, h.cwreq, h.reqErr, ?_, ?_, ?_,
        h.wrtPhase, h.supIff, h.mainSup, ?_, h.writeL, h.gReplies, h.wReplies, ?_,
        h.shape, h.orderCl, h.reqReplyShape⟩
      · intro hd; rcases hd with h1 | h1 <;> cases h1
      · have hx := h.wgEq; rw [hq] at hx; simpa [sExtra] using hx
      · have hx := h.sends; rw [hq] at hx; simpa using hx
      · constructor
        · intro hg; exact absurd hg hgwF
        · intro hd; rcases hd with h1 | h1 <;> cases h1
      · intro hd; rcases hd with h1 | h1 | h1 <;> cases h1
      · intro _; exact hcw
      · intro h1; cases h1
      · have hx := h.sReplies; rw [hq] at hx; simpa using hx
    · rw [if_neg hcw] at hs; cases hs
  case read =>
    -- launch one Getter bound to the CURRENT value of the shared loop
    -- variable, bump wg and currentRoutines, then check the budget
    have hcr : c.cur + 1 ≤ capN env := h.curRecv (Or.inr hq)
    have hliv := h.liveEq
    have hwgx : c.wg + countWg c = c.getters.length + 1 := by
      have hx := h.wgEq; rw [hq] at hx; simpa [sExtra] using hx
    have hsnd : c.getters.length + 1 = sendsDone env c.req := by
      have hx := h.sends; rw [hq] at hx; simpa using hx
    have hgwF : ¬c.gwClosed = true := by
      intro hg; rcases h.gwIff.1 hg with h1 | h1 <;> (rw [hq] at h1; cases h1)
    have hsrep : sCount c.received = 0 := by
      have hx := h.sReplies; rw [hq] at hx; simpa using hx
    by_cases hb : (↑(c.cur + 1) : Int) ≥ env.budget <;>
      [rw [if_pos hb, List.mem_singleton] at hs;
       rw [if_neg hb, List.mem_singleton] at hs] <;> subst hs
    · refine ⟨?_, ?_, ?_, ?_, ?_, h.sendIdx, h.cwreq, h.reqErr, ?_, ?_, ?_,
        h.wrtPhase, h.supIff, h.mainSup, ?_, ?_, ?_, h.wReplies, ?_,
        h.shape, h.orderCl, h.reqReplyShape⟩
      · simp only [liveGetters] at hliv ⊢
        simp [List.countP_append, List.countP_cons,
          show isLive GState.start = true from rfl] <;> omega
      · intro hd; rcases hd with h1 | h1 <;> cases h1
      · exact hcr
      · simp only [countWg] at hwgx ⊢
        simp [List.countP_append, List.countP_cons, sExtra,
          show pastWg GState.start = false from rfl] <;> omega
      · simp <;> omega
      · constructor
        · intro hg; exact absurd hg hgwF
        · intro hd; rcases hd with h1 | h1 <;> cases h1
      · intro hd; rcases hd with h1 | h1 | h1 <;> cases h1
      · intro h1; simp [spwLate] at h1
      · intro _; show 1 ≤ c.cur + 1; omega
      · intro d _; simp <;> omega
      · have hgr := h.gReplies
        simp only [countEmitted, gCount] at hgr ⊢
        simp [List.countP_append, List.countP_cons,
          show pastEmit GState.start = false from rfl] <;> omega
      · simpa using hsrep
    · refine ⟨?_, ?_, ?_, ?_, ?_, h.sendIdx, h.cwreq, h.reqErr, ?_, ?_, ?_,
        h.wrtPhase, h.supIff, h.mainSup, ?_, ?_, ?_, h.wReplies, ?_,
        h.shape, h.orderCl, h.reqReplyShape⟩
      · simp only [liveGetters] at hliv ⊢
        simp [List.countP_append, List.countP_cons,
          show isLive GState.start = true from rfl] <;> omega
      · intro _
        show c.cur + 1 + 1 ≤ capN env
        unfold capN; split <;> omega
      · exact hcr
      · simp only [countWg] at hwgx ⊢
        simp [List.countP_append, List.countP_cons, sExtra,
          show pastWg GState.start = false from rfl] <;> omega
      · simp <;> omega
      · constructor
        · intro hg; exact absurd hg hgwF
        · intro hd; rcases hd with h1 | h1 <;> cases h1
      · intro hd; rcases hd with h1 | h1 | h1 <;> cases h1
      · intro h1; simp [spwLate] at h1
      · intro h1; cases h1
      · intro d _; simp <;> omega
      · have hgr := h.gReplies
        simp only [countEmitted, gCount] at hgr ⊢
        simp [List.countP_append, List.countP_cons,
          show pastEmit GState.start = false from rfl] <;> omega
      · simpa using hsrep
  case probe => cases hs
  case finish1 =>
    rw [List.mem_singleton] at hs; subst hs
    -- the Spawner's own wg.Done() (modules.go:214)
    have hwgx : c.wg + countWg c = c.getters.length + 1 := by
      have hx := h.wgEq; rw [hq] at hx; simpa [sExtra] using hx
    have hW : countWg c ≤ c.getters.length := List.countP_le_length _
    have hgwF : ¬c.gwClosed = true := by
      intro hg; rcases h.gwIff.1 hg with h1 | h1 <;> (rw [hq] at h1; cases h1)
    refine ⟨h.liveEq, ?_, h.curAll, ?_, ?_, h.sendIdx, h.cwreq, h.reqErr, ?_, ?_, ?_,
      h.wrtPhase, h.supIff, h.mainSup, ?_, h.writeL, h.gReplies, h.wReplies, ?_,
      h.shape, h.orderCl, h.reqReplyShape⟩
    · intro hd; rcases hd with h1 | h1 <;> cases h1
    · show c.wg - 1 + countWg c = c.getters.length + sExtra SState.wait
      simp only [sExtra]
      omega
    · have hx := h.sends; rw [hq] at hx; simpa using hx
    · constructor
      · intro hg; exact absurd hg hgwF
      · intro hd; rcases hd with h1 | h1 <;> cases h1
    · intro hd; rcases hd with h1 | h1 | h1 <;> cases h1
    · intro _; exact h.spwLateCw (by rw [hq]; rfl)
    · intro h1; cases h1
    · have hx := h.sReplies; rw [hq] at hx; simpa using hx
  case wait =>
    by_cases hwg : c.wg = 0
    · rw [if_pos hwg, List.mem_singleton] at hs; subst hs
      -- wg.Wait() returned: close getAndWrite next
      have hgwF : ¬c.gwClosed = true := by
        intro hg; rcases h.gwIff.1 hg with h1 | h1 <;> (rw [hq] at h1; cases h1)
      refine ⟨h.liveEq, ?_, h.curAll, ?_, ?_, h.sendIdx, h.cwreq, h.reqErr, ?_, ?_, ?_,
        h.wrtPhase, h.supIff, h.mainSup, ?_, h.writeL, h.gReplies, h.wReplies, ?_,
        h.shape, h.orderCl, h.reqReplyShape⟩
      · intro hd; rcases hd with h1 | h1 <;> cases h1
      · have hx := h.wgEq; rw [hq] at hx; simpa [sExtra] using hx
      · have hx := h.sends; rw [hq] at hx; simpa using hx
      · constructor
        · intro hg; exact absurd hg hgwF
        · intro hd; rcases hd with h1 | h1 <;> cases h1
      · intro _; exact hwg
      · intro _; exact h.spwLateCw (by rw [hq]; rfl)
      · intro h1; cases h1
      · have hx := h.sReplies; rw [hq] at hx; simpa using hx
    · rw [if_neg hwg] at hs; cases hs
  case closeCh =>
    rw [List.mem_singleton] at hs; subst hs
    -- close(getAndWrite) (modules.go:217)
    refine ⟨h.liveEq, ?_, h.curAll, ?_, ?_, h.sendIdx, h.cwreq, h.reqErr, ?_, ?_, ?_,
      ?_, h.supIff, h.mainSup, ?_, h.writeL, h.gReplies, h.wReplies, ?_,
      h.shape, h.orderCl, h.reqReplyShape⟩
    · intro hd; rcases hd with h1 | h1 <;> cases h1
    · have hx := h.wgEq; rw [hq] at hx; simpa [sExtra] using hx
    · have hx := h.sends; rw [hq] at hx; simpa using hx
    · simp
    · intro _; exact h.wgZero (Or.inl hq)
    · intro _; exact h.spwLateCw (by rw [hq]; rfl)
    · intro _; rfl
    · intro h1; cases h1
    · have hx := h.sReplies; rw [hq] at hx; simpa using hx
  case emit =>
    by_cases hsup : c.supClosed = true
    · rw [if_pos hsup, List.mem_singleton] at hs; subst hs
      exact inv_crash h
    · rw [if_neg hsup] at hs
      by_cases hm : c.mainPc = MState.recv
      · rw [if_pos hm, List.mem_singleton] at hs; subst hs
        -- the Spawner's (always Success) reply is received
        have hgw : c.gwClosed = true := h.gwIff.2 (Or.inl hq)
        refine ⟨h.liveEq, ?_, h.curAll, ?_, ?_, h.sendIdx, h.cwreq, h.reqErr, ?_, ?_, ?_,
          h.wrtPhase, h.supIff, h.mainSup, ?_, h.writeL, ?_, ?_, ?_, ?_, ?_, ?_⟩
        · intro hd; rcases hd with h1 | h1 <;> cases h1
        · have hx := h.wgEq; rw [hq] at hx; simpa [sExtra] using hx
        · have hx := h.sends; rw [hq] at hx; simpa using hx
        · simp [hgw]
        · intro _; exact h.wgZero (Or.inr (Or.inl hq))
        · intro _; exact h.spwLateCw (by rw [hq]; rfl)
        · intro h1; cases h1
        · simpa [gCount, List.countP_append, List.countP_cons, spwReply,
            countEmitted] using h.gReplies
        · simpa [wCount, List.countP_append, List.countP_cons, spwReply]
            using h.wReplies
        · have hx := h.sReplies; rw [hq] at hx
          simp at hx
          simp [sCount, List.countP_append, List.countP_cons, spwReply]
          simpa [sCount] using hx
        · intro r hr
          rcases List.mem_append.1 hr with hr | hr
          · exact h.shape r hr
          · rw [List.mem_singleton.1 hr]; exact replyOk_spw
        · exact orderCl_append_nonwriter (by simp [spwReply])
            (Or.inl (by simp [spwReply])) h.orderCl
        · intro e' he' r hr hobj
          rcases List.mem_append.1 hr with hr | hr
          · exact h.reqReplyShape e' he' r hr hobj
          · rw [List.mem_singleton.1 hr] at hobj
            simp [spwReply] at hobj
      · rw [if_neg hm] at hs; cases hs
  case done => cases hs

theorem inv_wrt (env : Env) {c c' : Config} (h : Inv env c) (hs : c' ∈ wrtSteps env c) :
    Inv env c' := by
  rcases hq : c.wrt with _ | d | _ | _ | _ <;>
    simp only [wrtSteps, hq] at hs
  case recv =>
    by_cases hgw : c.gwClosed = true
    · rw [if_pos hgw, List.mem_singleton] at hs; subst hs
      -- imgBox closed and drained: leave the receive loop, emit next
      have hsF := h.supIff; rw [hq] at hsF; simp at hsF
      have hwr := h.wReplies; rw [hq] at hwr; simp at hwr
      refine ⟨h.liveEq, h.curRecv, h.curAll, h.wgEq, h.sends, h.sendIdx, h.cwreq,
        h.reqErr, h.gwIff, h.wgZero, h.spwLateCw, ?_, ?_, h.mainSup, h.probeCur, ?_,
        h.gReplies, ?_, h.sReplies, h.shape, h.orderCl, h.reqReplyShape⟩
      · intro _; exact hgw
      · simp [hsF]
      · intro d' hd; cases hd
      · simpa using hwr
    · rw [if_neg hgw] at hs; cases hs
  case write =>
    -- the error returned by w.Write is dropped on the floor: both branches
    -- of the match produce the same successor
    have hsF := h.supIff; rw [hq] at hsF; simp at hsF
    have hwr := h.wReplies; rw [hq] at hwr; simp at hwr
    have hs' : c' = { c with wrt := WState.recv, wcount := c.wcount + 1 } := by
      rcases hW : env.writeErr c.wcount with _ | e <;> simp only [hW] at hs <;>
        exact List.mem_singleton.1 hs
    subst hs'
    refine ⟨h.liveEq, h.curRecv, h.curAll, h.wgEq, h.sends, h.sendIdx, h.cwreq,
      h.reqErr, h.gwIff, h.wgZero, h.spwLateCw, ?_, ?_, h.mainSup, h.probeCur, ?_,
      h.gReplies, ?_, h.sReplies, h.shape, h.orderCl, h.reqReplyShape⟩
    · intro hd; rcases hd with h1 | h1 | h1 <;> cases h1
    · simp [hsF]
    · intro d' hd; cases hd
    · simpa using hwr
  case emit =>
    by_cases hsup : c.supClosed = true
    · rw [if_pos hsup, List.mem_singleton] at hs; subst hs
      exact inv_crash h
    · rw [if_neg hsup] at hs
      by_cases hm : c.mainPc = MState.recv
      · rw [if_pos hm, List.mem_singleton] at hs; subst hs
        -- the Writer's reply is received; close(opStatus) is next
        have hsF := h.supIff; rw [hq] at hsF; simp at hsF
        have hwr : wCount c.received = 0 := by
          have hx := h.wReplies; rw [hq] at hx; simpa using hx
        refine ⟨h.liveEq, h.curRecv, h.curAll, h.wgEq, h.sends, h.sendIdx, h.cwreq,
          h.reqErr, h.gwIff, h.wgZero, h.spwLateCw, ?_, ?_, h.mainSup, h.probeCur, ?_,
          ?_, ?_, ?_, ?_, ?_, ?_⟩
        · intro _; exact h.wrtPhase (Or.inl hq)
        · simp [hsF]
        · intro d' hd; cases hd
        · simpa [gCount, List.countP_append, List.countP_cons, wrtReply,
            countEmitted] using h.gReplies
        · simp [wCount, List.countP_append, List.countP_cons, wrtReply]
          simpa [wCount] using hwr
        · simpa [sCount, List.countP_append, List.countP_cons, wrtReply]
            using h.sReplies
        · intro r hr
          rcases List.mem_append.1 hr with hr | hr
          · exact h.shape r hr
          · rw [List.mem_singleton.1 hr]; exact replyOk_wrt
        · exact orderCl_append_writer hwr
        · intro e' he' r hr hobj
          rcases List.mem_append.1 hr with hr | hr
          · exact h.reqReplyShape e' he' r hr hobj
          · rw [List.mem_singleton.1 hr] at hobj
            simp [wrtReply] at hobj
      · rw [if_neg hm] at hs; cases hs
  case closeCh =>
    rw [List.mem_singleton] at hs; subst hs
    -- close(w.supervisor) (modules.go:282)
    have hwr := h.wReplies; rw [hq] at hwr; simp at hwr
    refine ⟨h.liveEq, h.curRecv, h.curAll, h.wgEq, h.sends, h.sendIdx, h.cwreq,
      h.reqErr, h.gwIff, h.wgZero, h.spwLateCw, ?_, ?_, ?_, h.probeCur, ?_,
      h.gReplies, ?_, h.sReplies, h.shape, h.orderCl, h.reqReplyShape⟩
    · intro _; exact h.wrtPhase (Or.inr (Or.inl hq))
    · simp
    · intro _; rfl
    · intro d' hd; cases hd
    · simpa using hwr
  case done => cases hs

/-- Once `getAndWrite` is closed, every launched Getter has passed its
`wg.Done()` (the Spawner closes only after `wg.Wait()` returns). -/
theorem phase4_of_gwClosed {env : Env} {c : Config} (h : Inv env c)
    (hgw : c.gwClosed = true) : ∀ g ∈ c.getters, pastWg g.pc = true := by
  have hsp := h.gwIff.1 hgw
  have hwg : c.wg = 0 := h.wgZero (by rcases hsp with h1 | h1 <;> simp [h1])
  have hse : sExtra c.spw = 0 := by rcases hsp with h1 | h1 <;> simp [h1, sExtra]
  have heq := h.wgEq
  rw [hwg, hse] at heq
  have hle : countWg c ≤ c.getters.length := List.countP_le_length _
  have hcw : countWg c = c.getters.length := by omega
  exact List.countP_eq_length.1 hcw

theorem inv_g (env : Env) {c c' : Config} (h : Inv env c) (hs : c' ∈ gSteps env c) :
    Inv env c' := by
  unfold gSteps at hs
  rw [List.mem_flatMap] at hs
  obtain ⟨i, hi, hs⟩ := hs
  rw [List.mem_range] at hi
  rw [List.getD_eq_getElem _ _ hi] at hs
  rcases hgp : (c.getters[i]).pc with _ | d | e | _ | _ | _ <;>
    simp only [gStep, hgp] at hs
  case start =>
    -- perform http.Get: either hold the body, or hold the recovered error
    rcases hF : env.fetchRes i with e | body <;> simp only [hF] at hs <;>
      rw [List.mem_singleton] at hs <;> subst hs
    · refine ⟨?_, h.curRecv, h.curAll, ?_, ?_, h.sendIdx, h.cwreq, h.reqErr, h.gwIff,
        h.wgZero, h.spwLateCw, h.wrtPhase, h.supIff, h.mainSup, h.probeCur, ?_, ?_,
        h.wReplies, h.sReplies, h.shape, h.orderCl, h.reqReplyShape⟩
      · have ec := countP_set_eq (fun g => isLive g.pc) c.getters i
          { c.getters[i] with pc := GState.emit (some e) } hi
        rw [hgp] at ec
        simp [show isLive (GState.start) = true from rfl,
          show isLive (GState.emit (some e)) = true from rfl] at ec
        have hold := h.liveEq
        simp only [liveGetters] at hold
        simp [liveGetters]
        omega
      · have ec := countP_set_eq (fun g => pastWg g.pc) c.getters i
          { c.getters[i] with pc := GState.emit (some e) } hi
        rw [hgp] at ec
        simp [show pastWg (GState.start) = false from rfl,
          show pastWg (GState.emit (some e)) = false from rfl] at ec
        have hold := h.wgEq
        simp only [countWg] at hold
        simp [countWg, List.length_set]
        omega
      · simp only [List.length_set]
        exact h.sends
      · intro d' hd
        have := h.writeL d' hd
        simpa [List.length_set] using this
      · have ec := countP_set_eq (fun g => pastEmit g.pc) c.getters i
          { c.getters[i] with pc := GState.emit (some e) } hi
        rw [hgp] at ec
        simp [show pastEmit (GState.start) = false from rfl,
          show pastEmit (GState.emit (some e)) = false from rfl] at ec
        have hold := h.gReplies
        simp only [countEmitted, gCount] at hold
        simp [countEmitted, gCount]
        omega
    · refine ⟨?_, h.curRecv, h.curAll, ?_, ?_, h.sendIdx, h.cwreq, h.reqErr, h.gwIff,
        h.wgZero, h.spwLateCw, h.wrtPhase, h.supIff, h.mainSup, h.probeCur, ?_, ?_,
        h.wReplies, h.sReplies, h.shape, h.orderCl, h.reqReplyShape⟩
      · have ec := countP_set_eq (fun g => isLive g.pc) c.getters i
          { c.getters[i] with
            pc := GState.sendImg ⟨goBase (c.getters[i]).url, body⟩ } hi
        rw [hgp] at ec
        simp [show isLive (GState.start) = true from rfl,
          show isLive (GState.sendImg ⟨goBase (c.getters[i]).url, body⟩) = true from rfl] at ec
        have hold := h.liveEq
        simp only [liveGetters] at hold
        simp [liveGetters]
        omega
      · have ec := countP_set_eq (fun g => pastWg g.pc) c.getters i
          { c.getters[i] with
            pc := GState.sendImg ⟨goBase (c.getters[i]).url, body⟩ } hi
        rw [hgp] at ec
        simp [show pastWg (GState.start) = false from rfl,
          show pastWg (GState.sendImg ⟨goBase (c.getters[i]).url, body⟩) = false from rfl] at ec
        have hold := h.wgEq
        simp only [countWg] at hold
        simp [countWg, List.length_set]
        omega
      · simp only [List.length_set]
        exact h.sends
      · intro d' hd
        have := h.writeL d' hd
        simpa [List.length_set] using this
      · have ec := countP_set_eq (fun g => pastEmit g.pc) c.getters i
          { c.getters[i] with
            pc := GState.sendImg ⟨goBase (c.getters[i]).url, body⟩ } hi
        rw [hgp] at ec
        simp [show pastEmit (GState.start) = false from rfl,
          show pastEmit (GState.sendImg ⟨goBase (c.getters[i]).url, body⟩) = false from rfl] at ec
        have hold := h.gReplies
        simp only [countEmitted, gCount] at hold
        simp [countEmitted, gCount]
        omega
  case sendImg =>
    by_cases hgw : c.gwClosed = true
    · rw [if_pos hgw, List.mem_singleton] at hs; subst hs
      exact inv_crash h
    · rw [if_neg hgw] at hs
      by_cases hw : c.wrt = WState.recv
      · rw [if_pos hw, List.mem_singleton] at hs; subst hs
        -- rendezvous on getAndWrite: the Writer takes the ImgData
        have hsF := h.supIff; rw [hw] at hsF; simp at hsF
        have hwr := h.wReplies; rw [hw] at hwr; simp at hwr
        refine ⟨?_, h.curRecv, h.curAll, ?_, ?_, h.sendIdx, h.cwreq, h.reqErr, h.gwIff,
          h.wgZero, h.spwLateCw, ?_, ?_, h.mainSup, h.probeCur, ?_, ?_,
          ?_, h.sReplies, h.shape, h.orderCl, h.reqReplyShape⟩
        · have ec := countP_set_eq (fun g => isLive g.pc) c.getters i
            { c.getters[i] with pc := GState.emit none } hi
          rw [hgp] at ec
          simp [show isLive (GState.sendImg d) = true from rfl,
            show isLive (GState.emit none) = true from rfl] at ec
          have hold := h.liveEq
          simp only [liveGetters] at hold
          simp [liveGetters]
          omega
        · have ec := countP_set_eq (fun g => pastWg g.pc) c.getters i
            { c.getters[i] with pc := GState.emit none } hi
          rw [hgp] at ec
          simp [show pastWg (GState.sendImg d) = false from rfl,
            show pastWg (GState.emit none) = false from rfl] at ec
          have hold := h.wgEq
          simp only [countWg] at hold
          simp [countWg, List.length_set]
          omega
        · simp only [List.length_set]
          exact h.sends
        · intro hd; rcases hd with h1 | h1 | h1 <;> cases h1
        · simp [hsF]
        · intro d' _
          simp only [List.length_set]
          omega
        · have ec := countP_set_eq (fun g => pastEmit g.pc) c.getters i
            { c.getters[i] with pc := GState.emit none } hi
          rw [hgp] at ec
          simp [show pastEmit (GState.sendImg d) = false from rfl,
            show pastEmit (GState.emit none) = false from rfl] at ec
          have hold := h.gReplies
          simp only [countEmitted, gCount] at hold
          simp [countEmitted, gCount]
          omega
        · simpa using hwr
      · rw [if_neg hw] at hs; cases hs
  case emit =>
    by_cases hsup : c.supClosed = true
    · rw [if_pos hsup, List.mem_singleton] at hs; subst hs
      exact inv_crash h
    · rw [if_neg hsup] at hs
      by_cases hm : c.mainPc = MState.recv
      · rw [if_pos hm, List.mem_singleton] at hs; subst hs
        -- the Getter's reply is received by the supervisor loop
        have hw0 : wCount c.received = 0 := by
          rcases hwq : c.wrt with _ | d' | _ | _ | _
          · have hx := h.wReplies; rw [hwq] at hx; simpa using hx
          · have hx := h.wReplies; rw [hwq] at hx; simpa using hx
          · have hx := h.wReplies; rw [hwq] at hx; simpa using hx
          · have h4 := phase4_of_gwClosed h (h.wrtPhase (Or.inr (Or.inl hwq)))
              (c.getters[i]) (List.getElem_mem hi)
            rw [hgp] at h4; simp [pastWg] at h4
          · have h4 := phase4_of_gwClosed h (h.wrtPhase (Or.inr (Or.inr hwq)))
              (c.getters[i]) (List.getElem_mem hi)
            rw [hgp] at h4; simp [pastWg] at h4
        refine ⟨?_, h.curRecv, h.curAll, ?_, ?_, h.sendIdx, h.cwreq, h.reqErr, h.gwIff,
          h.wgZero, h.spwLateCw, h.wrtPhase, h.supIff, h.mainSup, h.probeCur, ?_, ?_,
          ?_, ?_, ?_, ?_, ?_⟩
        · have ec := countP_set_eq (fun g => isLive g.pc) c.getters i
            { c.getters[i] with pc := GState.wgdone } hi
          rw [hgp] at ec
          simp [show isLive (GState.emit e) = true from rfl,
            show isLive (GState.wgdone) = true from rfl] at ec
          have hold := h.liveEq
          simp only [liveGetters] at hold
          simp [liveGetters]
          omega
        · have ec := countP_set_eq (fun g => pastWg g.pc) c.getters i
            { c.getters[i] with pc := GState.wgdone } hi
          rw [hgp] at ec
          simp [show pastWg (GState.emit e) = false from rfl,
            show pastWg (GState.wgdone) = false from rfl] at ec
          have hold := h.wgEq
          simp only [countWg] at hold
          simp [countWg, List.length_set]
          omega
        · simp only [List.length_set]
          exact h.sends
        · intro d' hd
          have := h.writeL d' hd
          simpa [List.length_set] using this
        · have ec := countP_set_eq (fun g => pastEmit g.pc) c.getters i
            { c.getters[i] with pc := GState.wgdone } hi
          rw [hgp] at ec
          simp [show pastEmit (GState.emit e) = false from rfl,
            show pastEmit (GState.wgdone) = true from rfl] at ec
          have hold := h.gReplies
          simp only [countEmitted, gCount] at hold
          simp [countEmitted, gCount, List.countP_append, List.countP_cons, getReply]
          omega
        · simpa [wCount, List.countP_append, List.countP_cons, getReply]
            using h.wReplies
        · simpa [sCount, List.countP_append, List.countP_cons, getReply]
            using h.sReplies
        · intro r hr
          rcases List.mem_append.1 hr with hr | hr
          · exact h.shape r hr
          · rw [List.mem_singleton.1 hr]; exact replyOk_get e
        · exact orderCl_append_nonwriter (by simp [getReply]) (Or.inr hw0) h.orderCl
        · intro e' he' r hr hobj
          rcases List.mem_append.1 hr with hr | hr
          · exact h.reqReplyShape e' he' r hr hobj
          · rw [List.mem_singleton.1 hr] at hobj
            simp [getReply] at hobj
      · rw [if_neg hm] at hs; cases hs
  case wgdone =>
    rw [List.mem_singleton] at hs; subst hs
    -- wg.Done() (modules.go:240)
    have hne : ¬countWg c = c.getters.length := by
      intro he
      have hx := List.countP_eq_length.1 he (c.getters[i]) (List.getElem_mem hi)
      rw [hgp] at hx; simp [pastWg] at hx
    have hlt : countWg c < c.getters.length :=
      Nat.lt_of_le_of_ne (List.countP_le_length _) hne
    have hold := h.wgEq
    refine ⟨?_, h.curRecv, h.curAll, ?_, ?_, h.sendIdx, h.cwreq, h.reqErr, h.gwIff,
      ?_, h.spwLateCw, h.wrtPhase, h.supIff, h.mainSup, h.probeCur, ?_, ?_,
      h.wReplies, h.sReplies, h.shape, h.orderCl, h.reqReplyShape⟩
    · have ec := countP_set_eq (fun g => isLive g.pc) c.getters i
        { c.getters[i] with pc := GState.probe } hi
      rw [hgp] at ec
      simp [show isLive (GState.wgdone) = true from rfl,
        show isLive (GState.probe) = true from rfl] at ec
      have hliv := h.liveEq
      simp only [liveGetters] at hliv
      simp [liveGetters]
      omega
    · have ec := countP_set_eq (fun g => pastWg g.pc) c.getters i
        { c.getters[i] with pc := GState.probe } hi
      rw [hgp] at ec
      simp [show pastWg (GState.wgdone) = false from rfl,
        show pastWg (GState.probe) = true from rfl] at ec
      simp only [countWg] at hold hlt
      simp [countWg, List.length_set]
      omega
    · simp only [List.length_set]
      exact h.sends
    · intro hd
      have h0 := h.wgZero hd
      simp only [countWg] at hold hlt
      omega
    · intro d' hd
      have := h.writeL d' hd
      simpa [List.length_set] using this
    · have ec := countP_set_eq (fun g => pastEmit g.pc) c.getters i
        { c.getters[i] with pc := GState.probe } hi
      rw [hgp] at ec
      simp [show pastEmit (GState.wgdone) = true from rfl,
        show pastEmit (GState.probe) = true from rfl] at ec
      have hgr := h.gReplies
      simp only [countEmitted, gCount] at hgr
      simp [countEmitted, gCount]
      omega
  case probe =>
    by_cases hsp : c.spw = SState.probe
    · rw [if_pos hsp, List.mem_singleton] at hs; subst hs
      -- rendezvous on the probe channel: the slot is freed and the Getter
      -- has nothing left to run
      have hcur : 1 ≤ c.cur := h.probeCur hsp
      have hgwF : ¬c.gwClosed = true := by
        intro hg; rcases h.gwIff.1 hg with h1 | h1 <;> (rw [hsp] at h1; cases h1)
      have hsrep := h.sReplies; rw [hsp] at hsrep; simp at hsrep
      refine ⟨?_, ?_, ?_, ?_, ?_, h.sendIdx, h.cwreq, h.reqErr, ?_, ?_, ?_,
        h.wrtPhase, h.supIff, h.mainSup, ?_, ?_, ?_, h.wReplies, ?_,
        h.shape, h.orderCl, h.reqReplyShape⟩
      · have ec := countP_set_eq (fun g => isLive g.pc) c.getters i
          { c.getters[i] with pc := GState.done } hi
        rw [hgp] at ec
        simp [show isLive (GState.probe) = true from rfl,
          show isLive (GState.done) = false from rfl] at ec
        have hliv := h.liveEq
        simp only [liveGetters] at hliv
        simp [liveGetters]
        omega
      · intro _
        show c.cur - 1 + 1 ≤ capN env
        have := h.curAll; omega
      · show c.cur - 1 ≤ capN env
        have := h.curAll; omega
      · have ec := countP_set_eq (fun g => pastWg g.pc) c.getters i
          { c.getters[i] with pc := GState.done } hi
        rw [hgp] at ec
        simp [show pastWg (GState.probe) = true from rfl,
          show pastWg (GState.done) = true from rfl] at ec
        have hold := h.wgEq
        rw [hsp] at hold
        simp [countWg, sExtra] at hold
        simp [countWg, List.length_set, sExtra]
        omega
      · have hold := h.sends; rw [hsp] at hold
        simp only [List.length_set]
        simpa using hold
      · constructor
        · intro hg; exact absurd hg hgwF
        · intro hd; rcases hd with h1 | h1 <;> cases h1
      · intro hd; rcases hd with h1 | h1 | h1 <;> cases h1
      · intro h1; simp [spwLate] at h1
      · intro h1; cases h1
      · intro d' hd
        have := h.writeL d' hd
        simpa [List.length_set] using this
      · have ec := countP_set_eq (fun g => pastEmit g.pc) c.getters i
          { c.getters[i] with pc := GState.done } hi
        rw [hgp] at ec
        simp [show pastEmit (GState.probe) = true from rfl,
          show pastEmit (GState.done) = true from rfl] at ec
        have hgr := h.gReplies
        simp only [countEmitted, gCount] at hgr
        simp [countEmitted, gCount]
        omega
      · simpa using hsrep
    · rw [if_neg hsp] at hs; cases hs
  case done => cases hs


theorem inv_main (env : Env) {c c' : Config} (h : Inv env c) (hs : c' ∈ mainSteps c) :
    Inv env c' := by
  unfold mainSteps at hs
  split at hs
  case isTrue hcond =>
    rw [List.mem_singleton] at hs; subst hs
    exact ⟨h.liveEq, h.curRecv, h.curAll, h.wgEq, h.sends, h.sendIdx, h.cwreq, h.reqErr,
      h.gwIff, h.wgZero, h.spwLateCw, h.wrtPhase, h.supIff, fun _ => hcond.1, h.probeCur,
      h.writeL, h.gReplies, h.wReplies, h.sReplies, h.shape, h.orderCl,
      fun e he r hr hobj => by
        have := (h.reqReplyShape e he r hr hobj)
        exact this⟩
  case isFalse => cases hs

/-- One step of any task preserves the invariant. -/
theorem inv_step (env : Env) {c c' : Config} (h : Inv env c) (hs : c' ∈ step env c) :
    Inv env c' := by
  unfold step at hs
  split at hs
  · cases hs
  · rcases List.mem_append.1 hs with hs | hs
    · rcases List.mem_append.1 hs with hs | hs
      · rcases List.mem_append.1 hs with hs | hs
        · rcases List.mem_append.1 hs with hs | hs
          · exact inv_req env h hs
          · exact inv_spw env h hs
        · exact inv_wrt env h hs
      · exact inv_g env h hs
    · exact inv_main env h hs

/-- The protocol invariant holds in every reachable configuration. -/
theorem inv_reach (env : Env) {c : Config} (h : Reach env initConfig c) : Inv env c := by
  induction h with
  | refl => exact inv_init env
  | tail _ hs ih => exact inv_step env ih hs


/-! ## Properties of `validFilenameMaker` -/

/-- The loop only ever calls `stat`: the filesystem comes back unchanged. -/
theorem vfmLoop_fs_eq (dir noSfx ext base : String) :
    ∀ fuel i fs, (vfmLoop dir noSfx ext base i fuel fs).2 = fs := by
  intro fuel
  induction fuel with
  | zero => intro i fs; rfl
  | succ n ih =>
    intro i fs
    simp only [vfmLoop, stat]
    split
    · exact ih (i + 1) fs
    · rfl

/-- The loop returns the first candidate index whose path does not exist. -/
theorem vfmLoop_finds (dir noSfx ext base : String) (fs : FS) :
    ∀ fuel i k, i ≤ k → k < i + fuel →
    (∀ j, i ≤ j → j < k →
      fs.contains (goJoin dir (noSfx ++ "_" ++ toString j ++ ext)) = true) →
    fs.contains (goJoin dir (noSfx ++ "_" ++ toString k ++ ext)) = false →
    vfmLoop dir noSfx ext base i fuel fs
      = (Except.ok (goJoin dir (noSfx ++ "_" ++ toString k ++ ext)), fs) := by
  intro fuel
  induction fuel with
  | zero => intro i k h1 h2 _ _; omega
  | succ n ih =>
    intro i k hik hk hall hfree
    simp only [vfmLoop, stat]
    by_cases hie : i = k
    · subst hie
      rw [hfree]
      simp
    · rw [hall i le_rfl (by omega)]
      simp only [if_true]
      exact ih (i + 1) k (by omega) (by omega) (fun j hj1 hj2 => hall j (by omega) hj2) hfree

/-- When every candidate in range exists, the loop exhausts its attempts
and fails. -/
theorem vfmLoop_exhausted (dir noSfx ext base : String) (fs : FS) :
    ∀ fuel i,
    (∀ j, i ≤ j → j < i + fuel →
      fs.contains (goJoin dir (noSfx ++ "_" ++ toString j ++ ext)) = true) →
    vfmLoop dir noSfx ext base i fuel fs
      = (Except.error ("a number (maxIndices) of files have a similar name to " ++ base),
         fs) := by
  intro fuel
  induction fuel with
  | zero => intro i _; rfl
  | succ n ih =>
    intro i hall
    simp only [vfmLoop, stat]
    rw [hall i le_rfl (by omega)]
    simp only [if_true]
    exact ih (i + 1) (fun j h1 h2 => hall j (by omega) (by omega))

/-- C8: with a file at `writePath` and exactly the disambiguated siblings
`P_0 … P_(k-1)` present (`k < 100`), `validFilenameMaker` returns `P_k`
(the numeric disambiguator inserted before the extension); and when all
100 candidates exist it returns an error and no path. -/
theorem C8_collision_handling (fs : FS) (writePath : String) (k : Nat)
    (hP : fs.contains writePath = true) (hk : k < maxIndices)
    (hsib : ∀ i, i < k → fs.contains (vfmCand writePath i) = true)
    (hfree : fs.contains (vfmCand writePath k) = false) :
    (validFilenameMaker writePath fs).1 = Except.ok (vfmCand writePath k) ∧
    (∀ fs' : FS, fs'.contains writePath = true →
      (∀ i, i < maxIndices → fs'.contains (vfmCand writePath i) = true) →
      (validFilenameMaker writePath fs').1 =
        Except.error
          ("a number (maxIndices) of files have a similar name to " ++ goBase writePath)) := by
  constructor
  · unfold validFilenameMaker
    simp only [stat, hP, Bool.not_true, Bool.false_eq_true, if_false]
    rw [vfmLoop_finds (goDir writePath) (goTrimSuffix (goBase writePath) (goExt writePath))
      (goExt writePath) (goBase writePath) fs maxIndices 0 k (Nat.zero_le k) (by omega)
      (fun j _ hj => hsib j hj) hfree]
    rfl
  · intro fs' hP' hall
    unfold validFilenameMaker
    simp only [stat, hP', Bool.not_true, Bool.false_eq_true, if_false]
    rw [vfmLoop_exhausted (goDir writePath) (goTrimSuffix (goBase writePath) (goExt writePath))
      (goExt writePath) (goBase writePath) fs' maxIndices 0
      (fun j _ hj => hall j (by omega))]

/-- C8 witness at `/tmp/foo.png` with `foo.png`, `foo_0.png`, `foo_1.png`
already present: the result is `/tmp/foo_2.png`. -/
theorem C8_witness :
    (["/tmp/foo.png", "/tmp/foo_0.png", "/tmp/foo_1.png"] : FS).contains "/tmp/foo.png" = true ∧
    2 < maxIndices ∧
    (∀ i, i < 2 → (["/tmp/foo.png", "/tmp/foo_0.png", "/tmp/foo_1.png"] : FS).contains
      (vfmCand "/tmp/foo.png" i) = true) ∧
    (["/tmp/foo.png", "/tmp/foo_0.png", "/tmp/foo_1.png"] : FS).contains
      (vfmCand "/tmp/foo.png" 2) = false ∧
    (validFilenameMaker "/tmp/foo.png"
      ["/tmp/foo.png", "/tmp/foo_0.png", "/tmp/foo_1.png"]).1 =
      Except.ok (vfmCand "/tmp/foo.png" 2) :=
  ⟨by decide, by decide, by decide, by decide,
   (C8_collision_handling ["/tmp/foo.png", "/tmp/foo_0.png", "/tmp/foo_1.png"]
     "/tmp/foo.png" 2 (by decide) (by decide) (by decide) (by decide)).1⟩

/-- C9: the path-naming function is side-effect-free (it never creates a
file: the filesystem state it returns is the one it was given) and
idempotent (running it again on the filesystem it returned gives the same
answer). -/
theorem C9_idempotent_side_effect_free (writePath : String) (fs : FS) :
    (validFilenameMaker writePath fs).2 = fs ∧
    validFilenameMaker writePath ((validFilenameMaker writePath fs).2)
      = validFilenameMaker writePath fs := by
  have hfs : (validFilenameMaker writePath fs).2 = fs := by
    unfold validFilenameMaker
    simp only [stat]
    split
    · rfl
    · exact vfmLoop_fs_eq _ _ _ _ _ _ _
  exact ⟨hfs, by rw [hfs]⟩


/-! ## Claim theorems about the pipeline -/

theorem pastWg_imp (st : GState) (h : pastWg st = true) : pastEmit st = true := by
  cases st <;> simp [pastWg, pastEmit] at h ⊢

/-- The Requester can never have completed more sends than there are
descriptors. -/
theorem sendsDone_le (env : Env) {c : Config} (h : Inv env c) :
    sendsDone env c.req ≤ env.pairs.length := by
  rcases hq : c.req with _ | i | i | _ | e | _ <;> simp [sendsDone]
  · exact Nat.le_of_lt (h.sendIdx i (Or.inl hq))
  · exact Nat.le_of_lt (h.sendIdx i (Or.inr hq))

/-- Once the supervisor loop has ended, the full completion chain has run:
all descriptors were turned into Getters, every Getter emitted, and the
supervisor received exactly one Getter record per descriptor plus the
Writer record. -/
theorem completion_facts (env : Env) {c : Config} (h : Inv env c)
    (hm : c.mainPc = MState.done) :
    c.getters.length = env.pairs.length ∧ countEmitted c = c.getters.length ∧
    gCount c.received = env.pairs.length ∧ wCount c.received = 1 := by
  have hsup := h.mainSup hm
  have hwrt := h.supIff.1 hsup
  have hgw := h.wrtPhase (Or.inr (Or.inr hwrt))
  have hsp := h.gwIff.1 hgw
  have hwg : c.wg = 0 := h.wgZero (by rcases hsp with h1 | h1 <;> simp [h1])
  have hse : sExtra c.spw = 0 := by rcases hsp with h1 | h1 <;> simp [h1, sExtra]
  have hq := h.wgEq
  rw [hwg, hse] at hq
  have hEl : countEmitted c ≤ c.getters.length := List.countP_le_length _
  have hWE : countWg c ≤ countEmitted c :=
    List.countP_mono_left (fun g _ hg => pastWg_imp g.pc hg)
  have hE : countEmitted c = c.getters.length := by omega
  have hcw : c.cwClosed = true :=
    h.spwLateCw (by rcases hsp with h1 | h1 <;> simp [h1, spwLate])
  have hsd : sendsDone env c.req = env.pairs.length := by
    rcases (h.cwreq hcw).2 with h1 | h1 <;> simp [h1, sendsDone]
  have hsnr : ¬c.spw = SState.read := by
    rcases hsp with h1 | h1 <;> simp [h1]
  have hL : c.getters.length = env.pairs.length := by
    have hx := h.sends
    rw [if_neg hsnr] at hx
    omega
  refine ⟨hL, hE, ?_, ?_⟩
  · rw [h.gReplies, hE, hL]
  · rw [h.wReplies, if_pos (Or.inr hwrt)]

/-- C1: for every budget >= 1 and descriptor sequence of length N, the
number of live Fetcher tasks never exceeds the budget at any reachable
instant, at most N Fetcher OutcomeRecords are ever on the supervisor
channel, and when the supervisor loop ends exactly N Fetcher
OutcomeRecords have been received. -/
theorem C1_fetcher_records_and_budget (env : Env) (c : Config)
    (hb : 1 ≤ env.budget) (hr : Reach env initConfig c) :
    ((liveGetters c : Int) ≤ env.budget) ∧
    gCount c.received ≤ env.pairs.length ∧
    (c.mainPc = MState.done → gCount c.received = env.pairs.length) := by
  have h := inv_reach env hr
  refine ⟨?_, ?_, fun hm => (completion_facts env h hm).2.2.1⟩
  · have h1 := h.liveEq
    have h2 := h.curAll
    unfold capN at h2
    split at h2 <;> omega
  · have h1 := h.gReplies
    have h2 : countEmitted c ≤ c.getters.length := List.countP_le_length _
    have h3 := h.sends
    have h4 := sendsDone_le env h
    omega

def c1env : Env :=
  ⟨1, Except.ok [⟨"cat picture", "http://img.example/cat.png"⟩],
   fun _ => Except.ok "PNGBYTES", fun _ => none⟩

def c1sched : List Nat := [0, 0, 0, 0, 0, 0, 0, 0, 0, 0, 0, 0, 0, 0, 0, 0, 0, 0, 0, 0, 0]

def c1run : Config := runChoices c1env initConfig c1sched

theorem C1_witness :
    1 ≤ c1env.budget ∧ Reach c1env initConfig c1run ∧
    (((liveGetters c1run : Int) ≤ c1env.budget) ∧
     gCount c1run.received ≤ c1env.pairs.length ∧
     (c1run.mainPc = MState.done → gCount c1run.received = c1env.pairs.length)) :=
  ⟨by decide, reach_runChoices c1env initConfig c1sched,
   C1_fetcher_records_and_budget c1env c1run (by decide)
     (reach_runChoices c1env initConfig c1sched)⟩

def c2env : Env :=
  ⟨0, Except.ok [⟨"cat picture", "http://img.example/cat.png"⟩],
   fun _ => Except.ok "PNGBYTES", fun _ => none⟩

def c2sched : List Nat := [0, 0, 0, 0, 0, 0, 0, 0, 0, 0, 0, 0, 0, 0, 0, 0, 0, 0, 0, 0, 0]

def c2run : Config := runChoices c2env initConfig c2sched

/-- C2 counterexample: `NewSpawner` performs no validation, so with
`budget = 0` the pipeline still launches one Fetcher per descriptor, runs
to completion, and the Spawner reports Success — there is no
ConfigurationError and the Fetcher count is not zero. -/
theorem C2_counterexample :
    c2env.budget = 0 ∧ Reach c2env initConfig c2run ∧
    c2run.getters.length = 1 ∧ c2run.mainPc = MState.done ∧
    spwReply ∈ c2run.received ∧
    (∀ r ∈ c2run.received, r.status = OperationStatus.Success) :=
  ⟨rfl, reach_runChoices c2env initConfig c2sched, by decide, by decide, by decide, by decide⟩

/-- C2 amended: a non-positive budget is accepted without validation; the
budget check at modules.go:208 then fires after every launch, so the run
behaves as if the budget were 1 (at most one live Fetcher), and the
Spawner's outcome is always Success. -/
theorem C2_amended_budget_le_zero (env : Env) (c : Config)
    (hb : env.budget ≤ 0) (hr : Reach env initConfig c) :
    liveGetters c ≤ 1 ∧
    (∀ r ∈ c.received, r.objType = "Spawner" → r.status = OperationStatus.Success) := by
  have h := inv_reach env hr
  constructor
  · have h1 := h.liveEq
    have h2 := h.curAll
    unfold capN at h2
    split at h2 <;> omega
  · intro r hr2 hobj
    exact ((h.shape r hr2).1 (Or.inl hobj)).1

theorem C2_amended_witness :
    c2env.budget ≤ 0 ∧ Reach c2env initConfig c2run ∧
    (liveGetters c2run ≤ 1 ∧
     ∀ r ∈ c2run.received, r.objType = "Spawner" → r.status = OperationStatus.Success) :=
  ⟨by decide, reach_runChoices c2env initConfig c2sched,
   C2_amended_budget_le_zero c2env c2run (by decide)
     (reach_runChoices c2env initConfig c2sched)⟩

/-- C3 counterexample: `http.Get` returns a nil error for a 404 response,
so the Getter treats it as success: the body is handed to the Writer (not
discarded) and the OperationReply is Success, contradicting the claim that
a non-success status is treated as a failure. -/
theorem C3_counterexample :
    getterGet (HttpResult.response 404 "<html>not found</html>")
      = Except.ok "<html>not found</html>" ∧
    getterMainModel (HttpResult.response 404 "<html>not found</html>")
      = ⟨some "<html>not found</html>", OperationStatus.Success⟩ :=
  ⟨rfl, rfl⟩

/-- C3 amended: only transport-level failures are treated as failures; a
response with ANY status code is treated as success, its body is forwarded
to the Writer, and a Success OperationReply is emitted — the status code
is never inspected. -/
theorem C3_amended_status_ignored :
    (∀ statusCode body, getterGet (HttpResult.response statusCode body) = Except.ok body ∧
      getterMainModel (HttpResult.response statusCode body)
        = ⟨some body, OperationStatus.Success⟩) ∧
    (∀ e, getterGet (HttpResult.transportError e) = Except.error e ∧
      getterMainModel (HttpResult.transportError e) = ⟨none, OperationStatus.Failure⟩) :=
  ⟨fun _ _ => ⟨rfl, rfl⟩, fun _ => ⟨rfl, rfl⟩⟩


def c4env : Env :=
  ⟨1, Except.ok [⟨"cat picture", "http://img.example/cat.png"⟩],
   fun _ => Except.ok "PNGBYTES",
   fun _ => some "a number (maxIndices) of files have a similar name to cat.png"⟩

def c4sched : List Nat := [0, 0, 0, 0, 0, 0, 0, 0, 0, 0, 0, 0, 0, 0, 0, 0, 0, 0, 0, 0, 0]

def c4run : Config := runChoices c4env initConfig c4sched

/-- C4 counterexample: a complete run in which the Writer's single Write
call fails with a naming error, yet every OperationReply the supervisor
receives is Success with no error payload — the Sink's error is silently
dropped, not reported. -/
theorem C4_counterexample :
    c4env.writeErr 0 = some "a number (maxIndices) of files have a similar name to cat.png" ∧
    Reach c4env initConfig c4run ∧
    c4run.mainPc = MState.done ∧ c4run.wcount = 1 ∧
    (∀ r ∈ c4run.received,
      r.status = OperationStatus.Success ∧ r.errorMsg = none) :=
  ⟨rfl, reach_runChoices c4env initConfig c4sched, by decide, by decide, by decide⟩

/-- C4 amended: panics inside the Requester and the Getters are recovered
into OperationReplys whose status is Failure exactly when they carry the
recovered error; but the Writer's and the Spawner's replies are always
Success with no payload — in particular a write or naming error inside
`Writer.Write` is discarded by `Writer.Main` and never reaches any
OutcomeRecord. -/
theorem C4_amended_writer_errors_dropped (env : Env) (c : Config)
    (hr : Reach env initConfig c) :
    ∀ r ∈ c.received,
      ((r.objType = "Writer" ∨ r.objType = "Spawner") →
        r.status = OperationStatus.Success ∧ r.errorMsg = none) ∧
      ((r.objType = "Getter" ∨ r.objType = "Requester") →
        (r.status = OperationStatus.Failure ↔ r.errorMsg.isSome = true)) := by
  have h := inv_reach env hr
  intro r hr2
  have hs := h.shape r hr2
  exact ⟨fun hd => hs.1 (hd.elim Or.inr Or.inl), hs.2.1⟩

theorem C4_amended_witness :
    Reach c4env initConfig c4run ∧
    (∀ r ∈ c4run.received,
      ((r.objType = "Writer" ∨ r.objType = "Spawner") →
        r.status = OperationStatus.Success ∧ r.errorMsg = none) ∧
      ((r.objType = "Getter" ∨ r.objType = "Requester") →
        (r.status = OperationStatus.Failure ↔ r.errorMsg.isSome = true))) :=
  ⟨reach_runChoices c4env initConfig c4sched,
   C4_amended_writer_errors_dropped c4env c4run (reach_runChoices c4env initConfig c4sched)⟩

def c5env : Env :=
  ⟨1, Except.ok [⟨"cat picture", "http://img.example/cat.png"⟩],
   fun _ => Except.ok "PNGBYTES", fun _ => none⟩

def c5sched : List Nat := [0, 0, 0, 0, 0, 0, 0, 0, 0, 0, 0, 0, 0, 0, 0, 0, 1, 1, 0, 0, 0]

def c5run : Config := runChoices c5env initConfig c5sched

/-- C5 counterexample: a complete, crash-free run in which the supervisor
observes the Spawner's OutcomeRecord AFTER the Writer's — the Sink's
record is not the last event the Supervisor observes. -/
theorem C5_counterexample :
    Reach c5env initConfig c5run ∧ c5run.mainPc = MState.done ∧
    c5run.crashed = false ∧
    c5run.received.map (fun r => r.objType)
      = ["Requester", "Getter", "Writer", "Spawner"] :=
  ⟨reach_runChoices c5env initConfig c5sched, by decide, by decide, by decide⟩

/-- C5 amended: every Fetcher record is received before the Sink's record
(which is unique), because the Spawner joins all Getters before closing
`getAndWrite`; but the Spawner's and Requester's records are NOT ordered
before the Sink's — they can be observed after it, or even be sent after
the channel is closed. -/
theorem C5_amended_getter_records_precede_sink (env : Env) (c : Config)
    (hr : Reach env initConfig c) (hm : c.mainPc = MState.done) :
    gCount c.received = env.pairs.length ∧ wCount c.received = 1 ∧
    gCount (c.received.takeWhile fun r => !(r.objType == "Writer"))
      = env.pairs.length := by
  have h := inv_reach env hr
  obtain ⟨hL, hE, hg, hw⟩ := completion_facts env h hm
  exact ⟨hg, hw, by rw [h.orderCl, hg]⟩

theorem C5_amended_witness :
    Reach c5env initConfig c5run ∧ c5run.mainPc = MState.done ∧
    (gCount c5run.received = c5env.pairs.length ∧ wCount c5run.received = 1 ∧
     gCount (c5run.received.takeWhile fun r => !(r.objType == "Writer"))
       = c5env.pairs.length) :=
  ⟨reach_runChoices c5env initConfig c5sched, by decide,
   C5_amended_getter_records_precede_sink c5env c5run
     (reach_runChoices c5env initConfig c5sched) (by decide)⟩

def c6env : Env :=
  ⟨2, Except.ok [⟨"cat picture", "http://img.example/cat.png"⟩],
   fun _ => Except.ok "PNGBYTES", fun _ => none⟩

def c6sched : List Nat := [0, 0, 0, 0, 0, 0, 0, 0, 0, 0, 0, 0, 0, 0, 0, 0, 0, 0, 0, 0]

def c6run : Config := runChoices c6env initConfig c6sched

/-- C6 counterexample: with budget 2 and one descriptor the run completes
(the supervisor loop has ended and NO task has any step left), yet the
single launched Getter is still blocked at its probe send, which nobody
will ever receive — it never terminates. -/
theorem C6_counterexample :
    Reach c6env initConfig c6run ∧ c6run.mainPc = MState.done ∧
    c6run.getters.map (fun g => g.pc) = [GState.probe] ∧
    step c6env c6run = [] :=
  ⟨reach_runChoices c6env initConfig c6sched, by decide, by decide, by decide⟩

/-- C6 amended: every launched Getter emits exactly one OutcomeRecord —
at supervisor-loop end the number of Getter records equals the number of
launched Getters and every Getter has passed its emit — and the slot-free
probe send is attempted unconditionally on both paths; but Getters whose
probe send is never received stay blocked forever, so not every launched
Getter terminates. -/
theorem C6_amended_emit_exactly_once (env : Env) (c : Config)
    (hr : Reach env initConfig c) (hm : c.mainPc = MState.done) :
    gCount c.received = c.getters.length ∧
    (∀ g ∈ c.getters, pastEmit g.pc = true) := by
  have h := inv_reach env hr
  obtain ⟨hL, hE, hg, hw⟩ := completion_facts env h hm
  refine ⟨by rw [h.gReplies, hE], ?_⟩
  exact List.countP_eq_length.1 hE

theorem C6_amended_witness :
    Reach c6env initConfig c6run ∧ c6run.mainPc = MState.done ∧
    (gCount c6run.received = c6run.getters.length ∧
     ∀ g ∈ c6run.getters, pastEmit g.pc = true) :=
  ⟨reach_runChoices c6env initConfig c6sched, by decide,
   C6_amended_emit_exactly_once c6env c6run
     (reach_runChoices c6env initConfig c6sched) (by decide)⟩

def c7env : Env :=
  ⟨2, Except.ok [⟨"first", "http://img.example/urlA.png"⟩,
                 ⟨"second", "http://img.example/urlB.png"⟩],
   fun _ => Except.ok "PNGBYTES", fun _ => none⟩

def c7sched : List Nat := [0, 0, 0, 0, 0, 0, 1]

def c7run : Config := runChoices c7env initConfig c7sched

/-- C7: `Requester.Main` sends `&pair`, the address of the ONE loop
variable (modules.go:101-103), and the Spawner dereferences it only when
constructing the Getter (modules.go:203).  Under the schedule in which the
Requester's next loop iteration overwrites the variable between the
Spawner's receive and its read, BOTH launched Getters are bound to the
second descriptor's locator and the first descriptor's locator is never
fetched — distinct descriptors are not forwarded to distinct Fetchers. -/
theorem C7_loop_variable_aliasing :
    c7env.pairs.map (fun p => p.mediaUrl)
      = ["http://img.example/urlA.png", "http://img.example/urlB.png"] ∧
    Reach c7env initConfig c7run ∧
    c7run.getters.map (fun g => g.url)
      = ["http://img.example/urlB.png", "http://img.example/urlB.png"] :=
  ⟨by decide, reach_runChoices c7env initConfig c7sched, by decide⟩

/-- C10: if `Requester.Request` fails, the deferred function emits the
Failure reply but the `close(r.childWorker)` at modules.go:105 is never
executed.  In EVERY reachable configuration the descriptor channel stays
open, the Spawner is still blocked on its first receive with no Getter
launched, the content channel is never closed, the Writer is still blocked
receiving, the outcome channel is never closed, the supervisor loop has
not ended, and the only record ever received is the Requester's Failure —
the run hangs. -/
theorem C10_search_failure_hangs (env : Env) (e : String) (c : Config)
    (he : env.reqRes = Except.error e) (hr : Reach env initConfig c) :
    c.cwClosed = false ∧ c.spw = SState.recv ∧ c.getters = [] ∧
    c.gwClosed = false ∧ c.wrt = WState.recv ∧ c.supClosed = false ∧
    c.mainPc = MState.recv ∧
    (∀ r ∈ c.received, r = reqReply (some e)) := by
  have h := inv_reach env hr
  have hcw : c.cwClosed = false := by
    rcases hcwv : c.cwClosed with _ | _
    · rfl
    · exact absurd (h.cwreq hcwv).1 (by simp [he, Except.isOk, Except.toBool])
  have hsd0 : sendsDone env c.req = 0 := by
    rcases h.reqErr e he with h1 | h1 | h1 <;> simp [h1, sendsDone, Env.pairs, he]
  have hsends := h.sends
  rw [hsd0] at hsends
  have hL0 : c.getters.length = 0 := by omega
  have hnr : ¬c.spw = SState.read := by
    intro hx; rw [if_pos hx] at hsends; omega
  have hspw : c.spw = SState.recv := by
    rcases hx : c.spw with _ | _ | _ | _ | _ | _ | _ | _
    · rfl
    · exact absurd hx hnr
    · have h1 := h.probeCur hx
      have h2 := h.liveEq
      have h3 : liveGetters c ≤ c.getters.length := List.countP_le_length _
      omega
    · exact absurd (h.spwLateCw (by rw [hx]; rfl)) (by simp [hcw])
    · exact absurd (h.spwLateCw (by rw [hx]; rfl)) (by simp [hcw])
    · exact absurd (h.spwLateCw (by rw [hx]; rfl)) (by simp [hcw])
    · exact absurd (h.spwLateCw (by rw [hx]; rfl)) (by simp [hcw])
    · exact absurd (h.spwLateCw (by rw [hx]; rfl)) (by simp [hcw])
  have hnil : c.getters = [] := List.length_eq_zero.1 hL0
  have hgw : c.gwClosed = false := by
    rcases hgv : c.gwClosed with _ | _
    · rfl
    · rcases h.gwIff.1 hgv with h1 | h1 <;> (rw [hspw] at h1; cases h1)
  have hwrt : c.wrt = WState.recv := by
    rcases hx : c.wrt with _ | d | _ | _ | _
    · rfl
    · have := h.writeL d hx; omega
    · exact absurd (h.wrtPhase (Or.inl hx)) (by simp [hgw])
    · exact absurd (h.wrtPhase (Or.inr (Or.inl hx))) (by simp [hgw])
    · exact absurd (h.wrtPhase (Or.inr (Or.inr hx))) (by simp [hgw])
  have hsup : c.supClosed = false := by
    rcases hx : c.supClosed with _ | _
    · rfl
    · have h1 := h.supIff.1 hx
      rw [hwrt] at h1; cases h1
  have hmp : c.mainPc = MState.recv := by
    rcases hx : c.mainPc with _ | _
    · rfl
    · have h1 := h.mainSup hx
      rw [hsup] at h1; cases h1
  refine ⟨hcw, hspw, hnil, hgw, hwrt, hsup, hmp, ?_⟩
  intro r hrr
  have hg0 : gCount c.received = 0 := by
    rw [h.gReplies]
    simp [countEmitted, hnil]
  have hw0 : wCount c.received = 0 := by
    have hx := h.wReplies; rw [hwrt] at hx; simpa using hx
  have hs0 : sCount c.received = 0 := by
    have hx := h.sReplies; rw [hspw] at hx; simpa using hx
  have hobj : r.objType = "Requester" := by
    rcases (h.shape r hrr).2.2 with h1 | h1 | h1 | h1
    · exact h1
    · exact absurd (by simp [h1] : (r.objType == "Spawner") = true)
        (List.countP_eq_zero.1 hs0 r hrr)
    · exact absurd (by simp [h1] : (r.objType == "Getter") = true)
        (List.countP_eq_zero.1 hg0 r hrr)
    · exact absurd (by simp [h1] : (r.objType == "Writer") = true)
        (List.countP_eq_zero.1 hw0 r hrr)
  exact h.reqReplyShape e he r hrr hobj

def c10env : Env :=
  ⟨4, Except.error "bing: 500 service unavailable",
   fun _ => Except.ok "PNGBYTES", fun _ => none⟩

def c10sched : List Nat := [0, 0]

def c10run : Config := runChoices c10env initConfig c10sched

theorem C10_witness :
    c10env.reqRes = Except.error "bing: 500 service unavailable" ∧
    Reach c10env initConfig c10run ∧
    (c10run.cwClosed = false ∧ c10run.spw = SState.recv ∧ c10run.getters = [] ∧
     c10run.gwClosed = false ∧ c10run.wrt = WState.recv ∧ c10run.supClosed = false ∧
     c10run.mainPc = MState.recv ∧
     (∀ r ∈ c10run.received, r = reqReply (some "bing: 500 service unavailable"))) ∧
    c10run.received = [reqReply (some "bing: 500 service unavailable")] ∧
    step c10env c10run = [] :=
  ⟨rfl, reach_runChoices c10env initConfig c10sched,
   C10_search_failure_hangs c10env "bing: 500 service unavailable" c10run rfl
     (reach_runChoices c10env initConfig c10sched),
   by decide, by decide⟩

end GetImg
